import Mathlib

/-!
# circleci-cli: namespace and policy command layers

A shallow embedding of `cmd/namespace.go` and `cmd/policy/policy.go`.

The Go functions talk to collaborators that live outside these two files (the
registry API, the policy client, the file system, the date parser, the
terminal).  Every such collaborator is a field of an environment record, and
every call made to one is appended to a trace of events, so that "which calls
were made, in which order, with which arguments" is an ordinary list.

A Go `error` is an `Option String`: `none` is `nil`, `some m` is an error whose
`Error()` text is `m`.  `fmt.Errorf("p: %v", err)` and `fmt.Errorf("p: %w", err)`
both produce the text `"p: " ++ m`.
-/

namespace CircleCI

/-- A Go `error` value: `none` is `nil`, `some m` an error with message `m`. -/
abbrev GoError := Option String

/-- How a call of a Go function ends: it returns a value, it panics (an index out of
range), or the model ran out of fuel before the unbounded `for` loop ended. -/
inductive Outcome (α : Type) where
  | returned (v : α)
  | panicked
  | outOfFuel
  deriving DecidableEq, Repr

/-- One execution: the collaborator calls made, oldest first, and how it ended. -/
structure Run (ε α : Type) where
  trace : List ε
  outcome : Outcome α
  deriving DecidableEq, Repr

/-- Perform the observable step `e`, then continue as `k`. -/
def Run.emit {ε α : Type} (e : ε) (k : Run ε α) : Run ε α :=
  ⟨e :: k.trace, k.outcome⟩

/-- Return `v` without any further observable step. -/
def Run.ret {ε α : Type} (v : α) : Run ε α :=
  ⟨[], Outcome.returned v⟩

/-- Panic without any further observable step. -/
def Run.panic {ε α : Type} : Run ε α :=
  ⟨[], Outcome.panicked⟩

/-! ## Go standard library: `strings.TrimSpace` -/

/-- Go `unicode.IsSpace`: the Latin-1 spaces and the code points with the Unicode
White_Space property. -/
def isSpace (c : Char) : Bool :=
  let n := c.toNat
  n = 0x09 || n = 0x0A || n = 0x0B || n = 0x0C || n = 0x0D || n = 0x20 ||
  n = 0x85 || n = 0xA0 || n = 0x1680 || (0x2000 ≤ n && n ≤ 0x200A) ||
  n = 0x2028 || n = 0x2029 || n = 0x202F || n = 0x205F || n = 0x3000

/-- Go `strings.TrimSpace`: the string without its leading and trailing white space. -/
def TrimSpace (s : String) : String :=
  String.mk ((s.data.dropWhile isSpace).reverse.dropWhile isSpace).reverse

/-! ## cmd/namespace.go -/

/-- The `createNamespaceUserInterface` interface: its one method. -/
structure createNamespaceUserInterface where
  askUserToConfirm : String → Bool

/-- The fields of `namespaceOptions` that the functions below read.  `orgID` is a
`*string`: `none` is the nil pointer. -/
structure namespaceOptions where
  args : List String
  noPrompt : Bool
  orgID : Option String
  tty : createNamespaceUserInterface
  integrationTesting : Bool

/-- What a namespace operation does to the outside world. -/
inductive NsEvent where
  | Print (text : String)
  | AskUserToConfirm (message : String)
  | DeleteNamespaceAlias (aliasName : String)
  | CreateNamespaceWithOwnerID (name ownerID : String)
  | CreateNamespace (name organizationName organizationVcs : String)
  | RenameNamespace (oldName newName : String)
  | Help
  deriving DecidableEq, Repr

/-- The four registry operations of package `api`, as opposed to terminal traffic. -/
def NsEvent.isRemote : NsEvent → Bool
  | .DeleteNamespaceAlias _ => true
  | .CreateNamespaceWithOwnerID _ _ => true
  | .CreateNamespace _ _ _ => true
  | .RenameNamespace _ _ => true
  | _ => false

/-- The two remote create operations. -/
def NsEvent.isCreate : NsEvent → Bool
  | .CreateNamespaceWithOwnerID _ _ => true
  | .CreateNamespace _ _ _ => true
  | _ => false

/-- The collaborators of `namespace.go` that are defined elsewhere: `uuid.Parse`
(`true` when its error is nil), `strings.ToLower` and `strings.ToUpper`, the
registry calls of package `api` (only their error is used), and `cmd.Help()`. -/
structure NamespaceEnv where
  uuidParse : String → Bool
  ToLower : String → String
  ToUpper : String → String
  DeleteNamespaceAlias : String → GoError
  CreateNamespaceWithOwnerID : String → String → GoError
  CreateNamespace : String → String → String → GoError
  RenameNamespace : String → String → GoError
  Help : GoError

abbrev NsRun := Run NsEvent GoError

/-- The Go condition `opts.noPrompt || opts.tty.askUserToConfirm(confirm)`: the user
interface is consulted only when `noPrompt` is false.  `yes` and `no` are the two
continuations of the `if`. -/
def confirmThen (opts : namespaceOptions) (confirm : String) (yes no : NsRun) : NsRun :=
  if opts.noPrompt then yes
  else Run.emit (.AskUserToConfirm confirm) (if opts.tty.askUserToConfirm confirm then yes else no)

/-- Go `deleteNamespaceAlias`. -/
def deleteNamespaceAlias (env : NamespaceEnv) (opts : namespaceOptions) : NsRun :=
  match opts.args[0]? with
  | none => Run.panic
  | some aliasName =>
    let confirm := "Are you sure you wish to delete the namespace alias " ++ aliasName ++
      "? You should make sure that all configs and orbs that refer to it this way are updated to the new name first."
    confirmThen opts confirm
      (Run.emit (.DeleteNamespaceAlias aliasName) (Run.ret (env.DeleteNamespaceAlias aliasName)))
      (Run.ret none)

/-- The two lines printed after a successful creation. -/
def createdNotice (namespaceName : String) (k : NsRun) : NsRun :=
  Run.emit (.Print ("Namespace `" ++ namespaceName ++ "` created.\n"))
    (Run.emit (.Print "Please note that any orbs you publish in this namespace are open orbs and are world-readable.\n") k)

/-- Go `createNamespaceWithOrgId`. -/
def createNamespaceWithOrgId (env : NamespaceEnv) (opts : namespaceOptions)
    (namespaceName orgId : String) : NsRun :=
  let confirm := "Are you sure you wish to create the namespace: `" ++ namespaceName ++ "`"
  let body : NsRun :=
    confirmThen opts confirm
      (Run.emit (.CreateNamespaceWithOwnerID namespaceName orgId)
        (match env.CreateNamespaceWithOwnerID namespaceName orgId with
         | some err => Run.ret (some err)
         | none => createdNotice namespaceName (Run.ret none)))
      (Run.ret none)
  if !opts.noPrompt then
    Run.emit (.Print ("You are creating a namespace called \"" ++ namespaceName ++
      "\".\n\nThis is the only namespace permitted for your organization with id " ++ orgId ++
      ".\n\nTo change the namespace, you will have to contact CircleCI customer support.\n\n")) body
  else body

/-- Go `createNamespaceWithVcsTypeAndOrgName`.  The parameters `vcsType` and `orgName`
are not used by the Go body, which reads `opts.args[1]` and `opts.args[2]` instead;
either index panics when the argument is missing. -/
def createNamespaceWithVcsTypeAndOrgName (env : NamespaceEnv) (opts : namespaceOptions)
    (namespaceName _vcsType _orgName : String) : NsRun :=
  match opts.args[1]?, opts.args[2]? with
  | some arg1, some arg2 =>
    let confirm := "Are you sure you wish to create the namespace: `" ++ namespaceName ++ "`"
    let body : NsRun :=
      confirmThen opts confirm
        (Run.emit (.CreateNamespace namespaceName arg2 (env.ToUpper arg1))
          (match env.CreateNamespace namespaceName arg2 (env.ToUpper arg1) with
           | some err => Run.ret (some err)
           | none => createdNotice namespaceName (Run.ret none)))
        (Run.ret none)
    if !opts.noPrompt then
      Run.emit (.Print ("You are creating a namespace called \"" ++ namespaceName ++
        "\".\n\nThis is the only namespace permitted for your " ++ env.ToLower arg1 ++
        " organization, " ++ arg2 ++
        ".\n\nTo change the namespace, you will have to contact CircleCI customer support.\n\n")) body
    else body
  | _, _ => Run.panic

/-- The last line of `createNamespace`: `return cmd.Help()`. -/
def showHelp (env : NamespaceEnv) : NsRun :=
  Run.emit .Help (Run.ret env.Help)

/-- The org-id that passes the outer condition of `createNamespace`,
`opts.orgID != nil && strings.TrimSpace(*opts.orgID) != ""`, if there is one. -/
def providedOrgID (opts : namespaceOptions) : Option String :=
  opts.orgID.filter (fun orgID => TrimSpace orgID != "")

/-- Go `createNamespace`.  The `else if` belongs to the outer `if`: the three-argument
branch is examined only when the org-id is nil or blank.  In that branch `opts.args[1]`
and `opts.args[2]` are in range, the length being 3. -/
def createNamespace (env : NamespaceEnv) (opts : namespaceOptions) : NsRun :=
  match opts.args[0]? with
  | none => Run.panic
  | some namespaceName =>
    match providedOrgID opts with
    | some orgID =>
      if env.uuidParse orgID then createNamespaceWithOrgId env opts namespaceName orgID
      else showHelp env
    | none =>
      if opts.args.length = 3 then
        createNamespaceWithVcsTypeAndOrgName env opts namespaceName
          (opts.args.getD 1 "") (opts.args.getD 2 "")
      else showHelp env

/-- Whether `createNamespace` enters one of its two creation functions rather than
ending at `return cmd.Help()`. -/
def selectsCreationPath (env : NamespaceEnv) (opts : namespaceOptions) : Bool :=
  match providedOrgID opts with
  | some orgID => env.uuidParse orgID
  | none => opts.args.length = 3

/-- Go `renameNamespace`. -/
def renameNamespace (env : NamespaceEnv) (opts : namespaceOptions) : NsRun :=
  match opts.args[0]?, opts.args[1]? with
  | some oldName, some newName =>
    let confirm := "Are you sure you wish to rename the namespace `" ++ oldName ++ "` to `" ++
      newName ++ "`?"
    confirmThen opts confirm
      (Run.emit (.RenameNamespace oldName newName)
        (match env.RenameNamespace oldName newName with
         | some err => Run.ret (some err)
         | none =>
           Run.emit (.Print ("Namespace `" ++ oldName ++ "` renamed to `" ++ newName ++ "`. `" ++
             oldName ++ "` is an alias for `" ++ newName ++
             "` so existing usages will continue to work, unless you delete the `" ++ oldName ++
             "` alias with `delete-namespace-alias " ++ oldName ++ "`")) (Run.ret none)))
      (Run.ret none)
  | _, _ => Run.panic

/-- The registry calls of a run, in order. -/
def remoteCalls (r : NsRun) : List NsEvent :=
  r.trace.filter NsEvent.isRemote

/-- The messages put to the confirmation user interface during a run. -/
def confirmationsAsked (r : NsRun) : List NsEvent :=
  r.trace.filter (fun e => match e with | .AskUserToConfirm _ => true | _ => false)

/-- A registry that accepts every request, a UUID parser that accepts exactly one
string, and ASCII case mapping: a concrete environment for evaluating the model. -/
def sampleNamespaceEnv : NamespaceEnv where
  uuidParse := fun s => s == "bb604b45-b6b0-4b81-ad80-796f15eddf87"
  ToLower := fun s => String.mk (s.data.map Char.toLower)
  ToUpper := fun s => String.mk (s.data.map Char.toUpper)
  DeleteNamespaceAlias := fun _ => none
  CreateNamespaceWithOwnerID := fun _ _ => none
  CreateNamespace := fun _ _ _ => none
  RenameNamespace := fun _ _ => none
  Help := none

/-- The user interface of `createNamespaceTestUI`: a fixed answer. -/
def createNamespaceTestUI (confirm : Bool) : createNamespaceUserInterface where
  askUserToConfirm := fun _ => confirm

/-- The `RunE` of `namespace create`: with `--integration-testing` the user interface
is replaced by the test one answering true. -/
def createRunE (env : NamespaceEnv) (opts : namespaceOptions) : NsRun :=
  createNamespace env
    (if opts.integrationTesting then { opts with tty := createNamespaceTestUI true } else opts)

/-! ## cmd/policy/policy.go -/

/-- Continue with `k` on the value a run returns; a panic or an exhausted fuel ends
the whole run there. -/
def Run.bind {ε α β : Type} (r : Run ε α) (k : α → Run ε β) : Run ε β :=
  match r.outcome with
  | .returned v => ⟨r.trace ++ (k v).trace, (k v).outcome⟩
  | .panicked => ⟨r.trace, .panicked⟩
  | .outOfFuel => ⟨r.trace, .outOfFuel⟩

/-- Go `defer`: the step `e` happens when the surrounding function ends, by return or
by panic; it does not happen in a run that never ends. -/
def Run.defer {ε α : Type} (e : ε) (r : Run ε α) : Run ε α :=
  match r.outcome with
  | .outOfFuel => r
  | _ => ⟨r.trace ++ [e], r.outcome⟩

/-- A decoded response of the policy service (`interface{}` in Go), kept as its text. -/
abbrev Value := String

/-- Go `time.Time`, as an instant. -/
structure Time where
  unixNano : Int
  deriving DecidableEq, Repr

/-- The fields of `policy.DecisionQueryRequest` that `policy.go` reads or writes.
The pointers `After` and `Before` are options; `Offset` only ever holds a length. -/
structure DecisionQueryRequest where
  After : Option Time
  Before : Option Time
  Branch : String
  ProjectID : String
  Offset : Nat
  deriving DecidableEq, Repr

/-- The fields of `policy.UpdateRequest`: four pointers, `none` being nil. -/
structure UpdateRequest where
  Content : Option String
  Active : Option Bool
  Context : Option String
  Name : Option String
  deriving DecidableEq, Repr

/-- Where the JSON encoder writes: `cmd.OutOrStdout()` or the file made by `os.Create`. -/
inductive Sink where
  | stdout
  | file (name : String)
  deriving DecidableEq, Repr

/-- The two date flags of `policy logs`. -/
inductive DateFlag where
  | after
  | before
  deriving DecidableEq, Repr

/-- The answer of `GetDecisionLogs`: a page of entries or an error. -/
inductive LogsResponse where
  | ok (logsBatch : List Value)
  | error (err : String)
  deriving DecidableEq, Repr

/-- The number of entries a response carries. -/
def LogsResponse.size : LogsResponse → Nat
  | .ok logsBatch => logsBatch.length
  | .error _ => 0

/-- What `policy update` and `policy logs` do to the outside world.  `SpinnerStart` and
`SpinnerStop` are `spr.Start()` and the deferred `spr.Stop()`; what the spinner draws
in between is not part of the model. -/
inductive PolicyEvent where
  | ParseStrict (flag : DateFlag) (value : String)
  | ReadFile (path : String)
  | Create (path : String)
  | Close (path : String)
  | SpinnerStart
  | SpinnerStop
  | GetDecisionLogs (ownerID : String) (request : DecisionQueryRequest) (response : LogsResponse)
  | UpdatePolicy (ownerID policyID : String) (request : UpdateRequest)
  | Encode (dst : Sink) (value : Value)
  | EncodeLogs (dst : Sink) (allLogs : List Value)
  deriving DecidableEq, Repr

/-- The collaborators of `policy.go` that are defined elsewhere: `dateparse.ParseStrict`,
`ioutil.ReadFile`, `os.Create` (only its error), the policy client, and the JSON encoder
of `prettyJSONEncoder`.  The first argument of `GetDecisionLogs` is the number of
`GetDecisionLogs` calls made before this one in the same invocation, so that the
service may answer the same request differently from call to call. -/
structure PolicyEnv where
  ParseStrict : String → Except String Time
  ReadFile : String → Except String String
  Create : String → GoError
  GetDecisionLogs : Nat → String → DecisionQueryRequest → LogsResponse
  UpdatePolicy : String → String → UpdateRequest → Except String Value
  Encode : Sink → Value → GoError
  EncodeLogs : Sink → List Value → GoError

abbrev PolicyRun := Run PolicyEvent GoError

/-- The flags of `policy update`.  `none` is a flag whose `Changed` is false; `some v`
is a flag set to `v` on the command line, so that the bound variable holds `v`. -/
structure UpdateFlags where
  policy : Option String
  active : Option Bool
  context : Option String
  name : Option String

/-- The tail of `update.RunE`, from `client := policy.NewClient(...)` on. -/
def updateSend (env : PolicyEnv) (ownerID : String) (flags : UpdateFlags) (args : List String)
    (updateRequest : UpdateRequest) : PolicyRun :=
  let updateRequest :=
    match flags.active with
    | some active => { updateRequest with Active := some active }
    | none => updateRequest
  let updateRequest :=
    match flags.context with
    | some context => { updateRequest with Context := some context }
    | none => updateRequest
  let updateRequest :=
    match flags.name with
    | some name => { updateRequest with Name := some name }
    | none => updateRequest
  match args[0]? with
  | none => Run.panic
  | some policyID =>
    Run.emit (.UpdatePolicy ownerID policyID updateRequest)
      (match env.UpdatePolicy ownerID policyID updateRequest with
       | .error err => Run.ret (some ("failed to update policy: " ++ err))
       | .ok result =>
         Run.emit (.Encode .stdout result)
           (match env.Encode .stdout result with
            | some err => Run.ret (some ("failed to encode result to stdout: " ++ err))
            | none => Run.ret none))

/-- The `RunE` of `policy update`.  `updateRequest` is the variable of that name in the
enclosing closure, as it stands when `RunE` starts. -/
def updateRunE (env : PolicyEnv) (ownerID : String) (flags : UpdateFlags) (args : List String)
    (updateRequest : UpdateRequest) : PolicyRun :=
  if !(flags.policy.isSome || flags.active.isSome || flags.context.isSome ||
      flags.name.isSome) then
    Run.ret (some "one of policy, active, context, or name must be set")
  else
    match flags.policy with
    | some policyPath =>
      Run.emit (.ReadFile policyPath)
        (match env.ReadFile policyPath with
         | .error err => Run.ret (some ("failed to read policy file: " ++ err))
         | .ok policyData =>
           updateSend env ownerID flags args { updateRequest with Content := some policyData })
    | none => updateSend env ownerID flags args updateRequest

/-- One invocation of `policy update` on the command built by `NewCommand`:
`var updateRequest policy.UpdateRequest` starts as the zero value. -/
def update (env : PolicyEnv) (ownerID : String) (flags : UpdateFlags) (args : List String) :
    PolicyRun :=
  updateRunE env ownerID flags args ⟨none, none, none, none⟩

/-- The flags of `policy logs`.  `after` and `before` are `none` when their `Changed`
is false; the other three are the values of the bound variables (default `""`). -/
structure LogsFlags where
  after : Option String
  before : Option String
  branch : String
  projectID : String
  out : String

/-- The `for` loop of `logs.RunE`.  `calls` counts the calls already made.  The loop
ends by `return fmt.Errorf(...)` (`Except.error`) or by `break` (`Except.ok allLogs`);
Go puts no bound on the number of iterations, the model stops when `fuel` is spent. -/
def fetchLoop (env : PolicyEnv) (ownerID : String) :
    Nat → Nat → DecisionQueryRequest → List Value → Run PolicyEvent (Except String (List Value))
  | 0, _, _, _ => ⟨[], .outOfFuel⟩
  | fuel + 1, calls, request, allLogs =>
    Run.emit (.GetDecisionLogs ownerID request (env.GetDecisionLogs calls ownerID request))
      (match env.GetDecisionLogs calls ownerID request with
       | .error err => Run.ret (.error ("failed to get policy decision logs: " ++ err))
       | .ok logsBatch =>
         if logsBatch.length = 0 then Run.ret (.ok allLogs)
         else
           fetchLoop env ownerID fuel (calls + 1)
             { request with Offset := (allLogs ++ logsBatch).length } (allLogs ++ logsBatch))

/-- The part of `logs.RunE` from `allLogs := make(...)` to the end, with the deferred
`spr.Stop()`. -/
def logsFetch (env : PolicyEnv) (ownerID : String) (dst : Sink)
    (request : DecisionQueryRequest) (fuel : Nat) : PolicyRun :=
  Run.emit .SpinnerStart
    (Run.defer .SpinnerStop
      (Run.bind (fetchLoop env ownerID fuel 0 request [])
        (fun r =>
          match r with
          | .error msg => Run.ret (some msg)
          | .ok allLogs =>
            Run.emit (.EncodeLogs dst allLogs)
              (match env.EncodeLogs dst allLogs with
               | some err =>
                 Run.ret (some ("failed to output policy decision logs in json format: " ++ err))
               | none => Run.ret none))))

/-- The part of `logs.RunE` from `dst := cmd.OutOrStdout()` on.  The deferred closure
calls `file.Close()`; the `err` it assigns is the one declared by
`file, err := os.Create(outputFile)` inside the `if` block, not the named result, so
the returned error does not depend on it. -/
def logsOutput (env : PolicyEnv) (ownerID : String) (flags : LogsFlags)
    (request : DecisionQueryRequest) (fuel : Nat) : PolicyRun :=
  if flags.out != "" then
    Run.emit (.Create flags.out)
      (match env.Create flags.out with
       | some err => Run.ret (some ("failed to create output file: " ++ err))
       | none =>
         Run.defer (.Close flags.out) (logsFetch env ownerID (.file flags.out) request fuel))
  else logsFetch env ownerID .stdout request fuel

/-- The part of `logs.RunE` from `if cmd.Flag("before").Changed` on. -/
def logsBefore (env : PolicyEnv) (ownerID : String) (flags : LogsFlags)
    (request : DecisionQueryRequest) (fuel : Nat) : PolicyRun :=
  match flags.before with
  | some before =>
    Run.emit (.ParseStrict .before before)
      (match env.ParseStrict before with
       | .error err => Run.ret (some ("error in parsing --before value: " ++ err))
       | .ok t => logsOutput env ownerID flags { request with Before := some t } fuel)
  | none => logsOutput env ownerID flags request fuel

/-- The `RunE` of `policy logs`.  `request` is the variable of that name in the
enclosing closure, as it stands when `RunE` starts. -/
def logsRunE (env : PolicyEnv) (ownerID : String) (flags : LogsFlags)
    (request : DecisionQueryRequest) (fuel : Nat) : PolicyRun :=
  match flags.after with
  | some after =>
    Run.emit (.ParseStrict .after after)
      (match env.ParseStrict after with
       | .error err => Run.ret (some ("error in parsing --after value: " ++ err))
       | .ok t => logsBefore env ownerID flags { request with After := some t } fuel)
  | none => logsBefore env ownerID flags request fuel

/-- One invocation of `policy logs` on the command built by `NewCommand`:
`var request policy.DecisionQueryRequest` starts as the zero value, and the flags
`--branch` and `--project-id` are bound to its fields `Branch` and `ProjectID`. -/
def logs (env : PolicyEnv) (ownerID : String) (flags : LogsFlags) (fuel : Nat) : PolicyRun :=
  logsRunE env ownerID flags ⟨none, none, flags.branch, flags.projectID, 0⟩ fuel

/-- The `GetDecisionLogs` calls of a trace, in order: the request sent and the answer. -/
def decisionLogCalls (trace : List PolicyEvent) : List (DecisionQueryRequest × LogsResponse) :=
  trace.filterMap (fun e =>
    match e with
    | .GetDecisionLogs _ request response => some (request, response)
    | _ => none)

/-- The values handed to the JSON encoder by `policy logs`, in order. -/
def encodedLogs (trace : List PolicyEvent) : List (Sink × List Value) :=
  trace.filterMap (fun e =>
    match e with
    | .EncodeLogs dst allLogs => some (dst, allLogs)
    | _ => none)

/-- The requests handed to `UpdatePolicy`, in order. -/
def updatePolicyCalls (trace : List PolicyEvent) : List (String × String × UpdateRequest) :=
  trace.filterMap (fun e =>
    match e with
    | .UpdatePolicy ownerID policyID request => some (ownerID, policyID, request)
    | _ => none)

/-- The date flags handed to `dateparse.ParseStrict`, in order, with their values. -/
def parsedFlags (trace : List PolicyEvent) : List (DateFlag × String) :=
  trace.filterMap (fun e =>
    match e with
    | .ParseStrict flag value => some (flag, value)
    | _ => none)

/-- The sink `logs.RunE` encodes to: the file named by `--out`, or standard output. -/
def logsSink (flags : LogsFlags) : Sink :=
  if flags.out != "" then .file flags.out else .stdout

/-- How a run `r` of `logs.RunE`, or of a tail of it, relates to `logsFetch`: either
it returned early (a rejected date, or an output file that could not be created)
without any `GetDecisionLogs` call or encoding, or its calls, its encodings and its
outcome are those of `logsFetch` on a request with offset 0 whose filters are absent
when their flag was not set. -/
def LogsShape (env : PolicyEnv) (ownerID : String) (flags : LogsFlags) (fuel : Nat)
    (r : PolicyRun) : Prop :=
  (((∃ s err, flags.after = some s ∧ env.ParseStrict s = .error err) ∨
    (∃ s err, flags.before = some s ∧ env.ParseStrict s = .error err) ∨
    (flags.out ≠ "" ∧ ∃ err, env.Create flags.out = some err)) ∧
    decisionLogCalls r.trace = [] ∧ encodedLogs r.trace = []) ∨
  (∃ request : DecisionQueryRequest, request.Offset = 0 ∧
    (flags.after = none → request.After = none) ∧
    (flags.before = none → request.Before = none) ∧
    decisionLogCalls r.trace =
      decisionLogCalls (logsFetch env ownerID (logsSink flags) request fuel).trace ∧
    encodedLogs r.trace =
      encodedLogs (logsFetch env ownerID (logsSink flags) request fuel).trace ∧
    r.outcome = (logsFetch env ownerID (logsSink flags) request fuel).outcome)

/-- A policy service that answers the `k`-th `GetDecisionLogs` call of an invocation
with the `k`-th element of a script and with an empty page afterwards, a date parser
that accepts only `2022/03/14`, a file system with one readable file, and an encoder
that never fails: a concrete environment for evaluating the model. -/
def samplePolicyEnv (script : List LogsResponse) : PolicyEnv where
  ParseStrict := fun s =>
    if s == "2022/03/14" then .ok ⟨1647216000000000000⟩ else .error "Could not find format"
  ReadFile := fun path =>
    if path == "./policy.rego" then .ok "package org" else .error "no such file or directory"
  Create := fun _ => none
  GetDecisionLogs := fun calls _ _ => script.getD calls (.ok [])
  UpdatePolicy := fun _ _ _ => .ok "updated"
  Encode := fun _ _ => none
  EncodeLogs := fun _ _ => none

/-- A policy service that pages by offset: it holds `stored` and answers every request
with at most `pageSize` entries starting at the offset the request carries, whatever
the number of calls made before.  The other collaborators are those of
`samplePolicyEnv`. -/
def pagingPolicyEnv (stored : List Value) (pageSize : Nat) : PolicyEnv :=
  { samplePolicyEnv [] with
    GetDecisionLogs := fun _ _ request => .ok ((stored.drop request.Offset).take pageSize) }

/-! ## Theorems: cmd/namespace.go -/

/-- The dispatch of `createNamespace` once the name argument is known to be present. -/
theorem createNamespace_of_args (env : NamespaceEnv) (opts : namespaceOptions)
    (name : String) (hname : opts.args[0]? = some name) :
    createNamespace env opts =
      match providedOrgID opts with
      | some orgID =>
        if env.uuidParse orgID then createNamespaceWithOrgId env opts name orgID
        else showHelp env
      | none =>
        if opts.args.length = 3 then
          createNamespaceWithVcsTypeAndOrgName env opts name
            (opts.args.getD 1 "") (opts.args.getD 2 "")
        else showHelp env := by
  simp only [createNamespace, hname]

/-- An org-id that is nil or blank is not a provided org-id. -/
theorem providedOrgID_eq_none (opts : namespaceOptions)
    (h : opts.orgID = none ∨ ∃ s, opts.orgID = some s ∧ TrimSpace s = "") :
    providedOrgID opts = none := by
  rcases h with h | ⟨s, h, hs⟩ <;> simp [providedOrgID, h, Option.filter, *]

/-- A non-blank org-id is the provided org-id. -/
theorem providedOrgID_eq_some (opts : namespaceOptions) (s : String)
    (h : opts.orgID = some s) (hs : TrimSpace s ≠ "") :
    providedOrgID opts = some s := by
  simp [providedOrgID, h, Option.filter, hs]

/-- With `noPrompt` set the user interface is not consulted. -/
theorem confirmThen_noPrompt (opts : namespaceOptions) (confirm : String) (yes no : NsRun)
    (h : opts.noPrompt = true) : confirmThen opts confirm yes no = yes := by
  simp [confirmThen, h]

/-- Without `noPrompt` the user interface is asked once and its answer selects the
continuation. -/
theorem confirmThen_prompt (opts : namespaceOptions) (confirm : String) (yes no : NsRun)
    (h : opts.noPrompt = false) :
    confirmThen opts confirm yes no =
      Run.emit (.AskUserToConfirm confirm)
        (if opts.tty.askUserToConfirm confirm then yes else no) := by
  simp [confirmThen, h]

/-- A present first argument, from a length bound. -/
theorem exists_arg0 (args : List String) (h : 1 ≤ args.length) :
    ∃ a0 rest, args = a0 :: rest := by
  cases args with
  | nil => simp at h
  | cons a0 rest => exact ⟨a0, rest, rfl⟩

/-- Two present arguments, from a length bound. -/
theorem exists_arg1 (args : List String) (h : 2 ≤ args.length) :
    ∃ a0 a1 rest, args = a0 :: a1 :: rest := by
  match args, h with
  | a0 :: a1 :: rest, _ => exact ⟨a0, a1, rest, rfl⟩

/-- Three present arguments, from a length bound. -/
theorem exists_arg2 (args : List String) (h : 3 ≤ args.length) :
    ∃ a0 a1 a2 rest, args = a0 :: a1 :: a2 :: rest := by
  match args, h with
  | a0 :: a1 :: a2 :: rest, _ => exact ⟨a0, a1, a2, rest, rfl⟩

/-- Declined confirmation in `createNamespaceWithOrgId`: the notice and the question,
nothing else. -/
theorem createNamespaceWithOrgId_declined (env : NamespaceEnv) (opts : namespaceOptions)
    (name orgId : String) (hnp : opts.noPrompt = false)
    (hno : ∀ m, opts.tty.askUserToConfirm m = false) :
    remoteCalls (createNamespaceWithOrgId env opts name orgId) = [] ∧
    (createNamespaceWithOrgId env opts name orgId).outcome = Outcome.returned none := by
  simp [createNamespaceWithOrgId, confirmThen_prompt, hnp, hno, remoteCalls, Run.emit, Run.ret,
    NsEvent.isRemote]

/-- Declined confirmation in `createNamespaceWithVcsTypeAndOrgName`. -/
theorem createNamespaceWithVcsTypeAndOrgName_declined (env : NamespaceEnv)
    (opts : namespaceOptions) (name vcsType orgName : String) (hargs : 3 ≤ opts.args.length)
    (hnp : opts.noPrompt = false) (hno : ∀ m, opts.tty.askUserToConfirm m = false) :
    remoteCalls (createNamespaceWithVcsTypeAndOrgName env opts name vcsType orgName) = [] ∧
    (createNamespaceWithVcsTypeAndOrgName env opts name vcsType orgName).outcome =
      Outcome.returned none := by
  obtain ⟨a0, a1, a2, rest, h⟩ := exists_arg2 opts.args hargs
  simp [createNamespaceWithVcsTypeAndOrgName, h, confirmThen_prompt, hnp, hno, remoteCalls,
    Run.emit, Run.ret, NsEvent.isRemote]

/-- With `noPrompt` set, `createNamespaceWithOrgId` asks nothing, calls
`CreateNamespaceWithOwnerID` once and returns that call's error. -/
theorem createNamespaceWithOrgId_noPrompt (env : NamespaceEnv) (opts : namespaceOptions)
    (name orgId : String) (hnp : opts.noPrompt = true) :
    remoteCalls (createNamespaceWithOrgId env opts name orgId) =
      [NsEvent.CreateNamespaceWithOwnerID name orgId] ∧
    confirmationsAsked (createNamespaceWithOrgId env opts name orgId) = [] ∧
    (createNamespaceWithOrgId env opts name orgId).outcome =
      Outcome.returned (env.CreateNamespaceWithOwnerID name orgId) := by
  cases hres : env.CreateNamespaceWithOwnerID name orgId <;>
    simp [createNamespaceWithOrgId, confirmThen_noPrompt, hnp, hres, remoteCalls,
      confirmationsAsked, createdNotice, Run.emit, Run.ret, NsEvent.isRemote]

/-- With confirmation granted, `createNamespaceWithOrgId` calls
`CreateNamespaceWithOwnerID` once and returns that call's error. -/
theorem createNamespaceWithOrgId_granted (env : NamespaceEnv) (opts : namespaceOptions)
    (name orgId : String) (hnp : opts.noPrompt = false)
    (hyes : ∀ m, opts.tty.askUserToConfirm m = true) :
    remoteCalls (createNamespaceWithOrgId env opts name orgId) =
      [NsEvent.CreateNamespaceWithOwnerID name orgId] ∧
    (createNamespaceWithOrgId env opts name orgId).outcome =
      Outcome.returned (env.CreateNamespaceWithOwnerID name orgId) := by
  cases hres : env.CreateNamespaceWithOwnerID name orgId <;>
    simp [createNamespaceWithOrgId, confirmThen_prompt, hnp, hyes, hres, remoteCalls,
      createdNotice, Run.emit, Run.ret, NsEvent.isRemote]

/-- With `noPrompt` set, `createNamespaceWithVcsTypeAndOrgName` asks nothing, calls
`CreateNamespace` once and returns that call's error. -/
theorem createNamespaceWithVcsTypeAndOrgName_noPrompt (env : NamespaceEnv)
    (opts : namespaceOptions) (name vcsType orgName a1 a2 : String)
    (h1 : opts.args[1]? = some a1) (h2 : opts.args[2]? = some a2)
    (hnp : opts.noPrompt = true) :
    remoteCalls (createNamespaceWithVcsTypeAndOrgName env opts name vcsType orgName) =
      [NsEvent.CreateNamespace name a2 (env.ToUpper a1)] ∧
    confirmationsAsked (createNamespaceWithVcsTypeAndOrgName env opts name vcsType orgName) = [] ∧
    (createNamespaceWithVcsTypeAndOrgName env opts name vcsType orgName).outcome =
      Outcome.returned (env.CreateNamespace name a2 (env.ToUpper a1)) := by
  cases hres : env.CreateNamespace name a2 (env.ToUpper a1) <;>
    simp [createNamespaceWithVcsTypeAndOrgName, h1, h2, confirmThen_noPrompt, hnp, hres,
      remoteCalls, confirmationsAsked, createdNotice, Run.emit, Run.ret, NsEvent.isRemote]

/-- C4, as amended.  When the org-id is nil or blank, `createNamespace` with exactly
three positional arguments is `createNamespaceWithVcsTypeAndOrgName` on those three
arguments, and with one or two arguments it only shows the help.  When the org-id is
non-blank and `uuid.Parse` rejects it, `createNamespace` only shows the help, however
many positional arguments there are: no remote create operation is called. -/
theorem createNamespace_when_orgID_not_a_uuid (env : NamespaceEnv) (opts : namespaceOptions) :
    ((opts.orgID = none ∨ ∃ s, opts.orgID = some s ∧ TrimSpace s = "") →
      (∀ a0 a1 a2, opts.args = [a0, a1, a2] →
        createNamespace env opts = createNamespaceWithVcsTypeAndOrgName env opts a0 a1 a2) ∧
      (1 ≤ opts.args.length → opts.args.length ≠ 3 →
        createNamespace env opts = showHelp env)) ∧
    (∀ s, opts.orgID = some s → TrimSpace s ≠ "" → env.uuidParse s = false →
      1 ≤ opts.args.length →
        createNamespace env opts = showHelp env ∧
        (createNamespace env opts).trace.filter NsEvent.isCreate = []) := by
  refine ⟨fun hblank => ⟨?_, ?_⟩, ?_⟩
  · intro a0 a1 a2 hargs
    rw [createNamespace_of_args env opts a0 (by simp [hargs]), providedOrgID_eq_none opts hblank]
    simp [hargs]
  · intro h1 h3
    obtain ⟨a0, rest, hargs⟩ : ∃ a0 rest, opts.args = a0 :: rest := by
      cases h : opts.args with
      | nil => simp [h] at h1
      | cons a0 rest => exact ⟨a0, rest, rfl⟩
    rw [createNamespace_of_args env opts a0 (by simp [hargs]), providedOrgID_eq_none opts hblank]
    simp [h3]
  · intro s hs hne hparse h1
    obtain ⟨a0, rest, hargs⟩ : ∃ a0 rest, opts.args = a0 :: rest := by
      cases h : opts.args with
      | nil => simp [h] at h1
      | cons a0 rest => exact ⟨a0, rest, rfl⟩
    have hrun : createNamespace env opts = showHelp env := by
      rw [createNamespace_of_args env opts a0 (by simp [hargs]),
        providedOrgID_eq_some opts s hs hne]
      simp [hparse]
    refine ⟨hrun, ?_⟩
    rw [hrun]
    simp [showHelp, Run.emit, Run.ret, NsEvent.isCreate]

/-- C4, witness: a blank org-id with three arguments, and a rejected non-blank org-id
with three arguments. -/
theorem createNamespace_when_orgID_not_a_uuid_witness :
    createNamespace sampleNamespaceEnv
        ⟨["ns", "github", "org"], true, some " ", createNamespaceTestUI false, false⟩ =
      createNamespaceWithVcsTypeAndOrgName sampleNamespaceEnv
        ⟨["ns", "github", "org"], true, some " ", createNamespaceTestUI false, false⟩
        "ns" "github" "org" ∧
    createNamespace sampleNamespaceEnv
        ⟨["ns", "github", "org"], true, some "not-a-uuid", createNamespaceTestUI false, false⟩ =
      showHelp sampleNamespaceEnv :=
  ⟨((createNamespace_when_orgID_not_a_uuid sampleNamespaceEnv
      ⟨["ns", "github", "org"], true, some " ", createNamespaceTestUI false, false⟩).1
      (Or.inr ⟨" ", rfl, by decide⟩)).1 "ns" "github" "org" rfl,
   ((createNamespace_when_orgID_not_a_uuid sampleNamespaceEnv
      ⟨["ns", "github", "org"], true, some "not-a-uuid", createNamespaceTestUI false, false⟩).2
      "not-a-uuid" rfl (by decide) (by decide) (by decide)).1⟩

/-- C4, counterexample to the claim as stated: the org-id `not-a-uuid` fails UUID
parsing and exactly three positional arguments are present, yet `createNamespace` does
not take the VCS-type/org-name path; it shows the help and calls nothing. -/
theorem createNamespace_rejected_orgID_three_args_shows_help :
    sampleNamespaceEnv.uuidParse "not-a-uuid" = false ∧
    createNamespace sampleNamespaceEnv
        ⟨["ns", "github", "org"], true, some "not-a-uuid", createNamespaceTestUI true, false⟩ =
      ⟨[NsEvent.Help], Outcome.returned none⟩ ∧
    createNamespaceWithVcsTypeAndOrgName sampleNamespaceEnv
        ⟨["ns", "github", "org"], true, some "not-a-uuid", createNamespaceTestUI true, false⟩
        "ns" "github" "org" =
      ⟨[NsEvent.CreateNamespace "ns" "org" "GITHUB",
        NsEvent.Print "Namespace `ns` created.\n",
        NsEvent.Print "Please note that any orbs you publish in this namespace are open orbs and are world-readable.\n"],
       Outcome.returned none⟩ ∧
    createNamespace sampleNamespaceEnv
        ⟨["ns", "github", "org"], true, some "not-a-uuid", createNamespaceTestUI true, false⟩ ≠
      createNamespaceWithVcsTypeAndOrgName sampleNamespaceEnv
        ⟨["ns", "github", "org"], true, some "not-a-uuid", createNamespaceTestUI true, false⟩
        "ns" "github" "org" := by
  refine ⟨by decide, by decide, by decide, by decide⟩

/-- C7.  With `noPrompt` unset and a user interface that answers false,
`deleteNamespaceAlias`, `renameNamespace`, the two creation functions and
`createNamespace` make no registry call, whatever their input; and they return nil
as soon as the positional arguments they index are present (for `createNamespace`: on
either of its two creation paths). -/
theorem declined_confirmation_makes_no_remote_call (env : NamespaceEnv)
    (opts : namespaceOptions) (hnp : opts.noPrompt = false)
    (hno : ∀ m, opts.tty.askUserToConfirm m = false) :
    (remoteCalls (deleteNamespaceAlias env opts) = [] ∧
      (1 ≤ opts.args.length →
        (deleteNamespaceAlias env opts).outcome = Outcome.returned none)) ∧
    (remoteCalls (renameNamespace env opts) = [] ∧
      (2 ≤ opts.args.length →
        (renameNamespace env opts).outcome = Outcome.returned none)) ∧
    (∀ name orgId,
      remoteCalls (createNamespaceWithOrgId env opts name orgId) = [] ∧
      (createNamespaceWithOrgId env opts name orgId).outcome = Outcome.returned none) ∧
    (∀ name vcsType orgName,
      remoteCalls (createNamespaceWithVcsTypeAndOrgName env opts name vcsType orgName) = [] ∧
      (3 ≤ opts.args.length →
        (createNamespaceWithVcsTypeAndOrgName env opts name vcsType orgName).outcome =
          Outcome.returned none)) ∧
    (remoteCalls (createNamespace env opts) = [] ∧
      (1 ≤ opts.args.length → selectsCreationPath env opts = true →
        (createNamespace env opts).outcome = Outcome.returned none)) := by
  have hvcs : ∀ name vcsType orgName,
      remoteCalls (createNamespaceWithVcsTypeAndOrgName env opts name vcsType orgName) = [] := by
    intro name vcsType orgName
    by_cases h3 : 3 ≤ opts.args.length
    · exact (createNamespaceWithVcsTypeAndOrgName_declined env opts name vcsType orgName h3
        hnp hno).1
    · unfold createNamespaceWithVcsTypeAndOrgName
      split
      · rename_i a1 a2 h1 h2
        have : 2 < opts.args.length := by
          by_contra hlt
          rw [List.getElem?_eq_none (by omega)] at h2
          cases h2
        omega
      · rfl
  refine ⟨⟨?_, ?_⟩, ⟨?_, ?_⟩, ?_, ?_, ⟨?_, ?_⟩⟩
  · cases hargs : opts.args with
    | nil => simp [deleteNamespaceAlias, hargs, Run.panic, remoteCalls]
    | cons a0 rest =>
      simp [deleteNamespaceAlias, hargs, confirmThen_prompt, hnp, hno, remoteCalls, Run.emit,
        Run.ret, NsEvent.isRemote]
  · intro h
    obtain ⟨a0, rest, hargs⟩ := exists_arg0 opts.args h
    simp [deleteNamespaceAlias, hargs, confirmThen_prompt, hnp, hno, Run.emit, Run.ret]
  · by_cases h2 : 2 ≤ opts.args.length
    · obtain ⟨a0, a1, rest, hargs⟩ := exists_arg1 opts.args h2
      simp [renameNamespace, hargs, confirmThen_prompt, hnp, hno, remoteCalls, Run.emit,
        Run.ret, NsEvent.isRemote]
    · unfold renameNamespace
      split
      · rename_i a0 a1 h0 h1
        have : 1 < opts.args.length := by
          by_contra hlt
          rw [List.getElem?_eq_none (by omega)] at h1
          cases h1
        omega
      · rfl
  · intro h
    obtain ⟨a0, a1, rest, hargs⟩ := exists_arg1 opts.args h
    simp [renameNamespace, hargs, confirmThen_prompt, hnp, hno, Run.emit, Run.ret]
  · intro name orgId
    exact createNamespaceWithOrgId_declined env opts name orgId hnp hno
  · intro name vcsType orgName
    exact ⟨hvcs name vcsType orgName, fun h =>
      (createNamespaceWithVcsTypeAndOrgName_declined env opts name vcsType orgName h hnp hno).2⟩
  · cases hargs : opts.args with
    | nil => simp [createNamespace, hargs, Run.panic, remoteCalls]
    | cons a0 rest =>
      rw [createNamespace_of_args env opts a0 (by simp [hargs])]
      cases providedOrgID opts with
      | some s =>
        by_cases hu : env.uuidParse s = true
        · simpa [hu] using (createNamespaceWithOrgId_declined env opts a0 s hnp hno).1
        · simp [hu, showHelp, remoteCalls, Run.emit, Run.ret, NsEvent.isRemote]
      | none =>
        by_cases h3 : opts.args.length = 3
        · simpa [h3] using hvcs a0 (opts.args.getD 1 "") (opts.args.getD 2 "")
        · simp [h3, showHelp, remoteCalls, Run.emit, Run.ret, NsEvent.isRemote]
  · intro h
    obtain ⟨a0, rest, hargs⟩ := exists_arg0 opts.args h
    rw [createNamespace_of_args env opts a0 (by simp [hargs])]
    unfold selectsCreationPath
    cases providedOrgID opts with
    | some s =>
      by_cases hu : env.uuidParse s = true
      · simpa [hu] using (createNamespaceWithOrgId_declined env opts a0 s hnp hno).2
      · simp [hu]
    | none =>
      by_cases h3 : opts.args.length = 3
      · simpa [h3] using (createNamespaceWithVcsTypeAndOrgName_declined env opts a0
          (opts.args.getD 1 "") (opts.args.getD 2 "") (by omega) hnp hno).2
      · simp [h3]

/-- C7, witness: the test user interface answering false, three arguments, once with a
valid org-id and once without any. -/
theorem declined_confirmation_makes_no_remote_call_witness :
    remoteCalls (deleteNamespaceAlias sampleNamespaceEnv
      ⟨["ns", "github", "org"], false, none, createNamespaceTestUI false, false⟩) = [] ∧
    (renameNamespace sampleNamespaceEnv
      ⟨["ns", "github", "org"], false, none, createNamespaceTestUI false, false⟩).outcome =
        Outcome.returned none ∧
    (createNamespace sampleNamespaceEnv
      ⟨["ns", "github", "org"], false, none, createNamespaceTestUI false, false⟩).outcome =
        Outcome.returned none ∧
    (createNamespace sampleNamespaceEnv
      ⟨["ns"], false, some "bb604b45-b6b0-4b81-ad80-796f15eddf87",
        createNamespaceTestUI false, false⟩).outcome = Outcome.returned none :=
  ⟨(declined_confirmation_makes_no_remote_call sampleNamespaceEnv
      ⟨["ns", "github", "org"], false, none, createNamespaceTestUI false, false⟩ rfl
      (fun _ => rfl)).1.1,
   (declined_confirmation_makes_no_remote_call sampleNamespaceEnv
      ⟨["ns", "github", "org"], false, none, createNamespaceTestUI false, false⟩ rfl
      (fun _ => rfl)).2.1.2 (by decide),
   (declined_confirmation_makes_no_remote_call sampleNamespaceEnv
      ⟨["ns", "github", "org"], false, none, createNamespaceTestUI false, false⟩ rfl
      (fun _ => rfl)).2.2.2.2.2 (by decide) (by decide),
   (declined_confirmation_makes_no_remote_call sampleNamespaceEnv
      ⟨["ns"], false, some "bb604b45-b6b0-4b81-ad80-796f15eddf87",
        createNamespaceTestUI false, false⟩ rfl
      (fun _ => rfl)).2.2.2.2.2 (by decide) (by decide)⟩

/-- C8, as amended.  With `noPrompt` set, and the positional arguments each function
indexes present, the user interface is never consulted; `deleteNamespaceAlias`,
`renameNamespace` and the two creation functions make exactly their one registry call
and return its error; `createNamespace` does the same when it selects a creation path,
and otherwise only shows the help, with no registry call. -/
theorem noPrompt_skips_confirmation (env : NamespaceEnv) (opts : namespaceOptions)
    (hnp : opts.noPrompt = true) :
    (∀ a0, opts.args[0]? = some a0 →
      deleteNamespaceAlias env opts =
        ⟨[NsEvent.DeleteNamespaceAlias a0], Outcome.returned (env.DeleteNamespaceAlias a0)⟩) ∧
    (∀ a0 a1, opts.args[0]? = some a0 → opts.args[1]? = some a1 →
      remoteCalls (renameNamespace env opts) = [NsEvent.RenameNamespace a0 a1] ∧
      confirmationsAsked (renameNamespace env opts) = [] ∧
      (renameNamespace env opts).outcome = Outcome.returned (env.RenameNamespace a0 a1)) ∧
    (∀ name orgId,
      remoteCalls (createNamespaceWithOrgId env opts name orgId) =
        [NsEvent.CreateNamespaceWithOwnerID name orgId] ∧
      confirmationsAsked (createNamespaceWithOrgId env opts name orgId) = [] ∧
      (createNamespaceWithOrgId env opts name orgId).outcome =
        Outcome.returned (env.CreateNamespaceWithOwnerID name orgId)) ∧
    (∀ name vcsType orgName a1 a2, opts.args[1]? = some a1 → opts.args[2]? = some a2 →
      remoteCalls (createNamespaceWithVcsTypeAndOrgName env opts name vcsType orgName) =
        [NsEvent.CreateNamespace name a2 (env.ToUpper a1)] ∧
      confirmationsAsked
        (createNamespaceWithVcsTypeAndOrgName env opts name vcsType orgName) = [] ∧
      (createNamespaceWithVcsTypeAndOrgName env opts name vcsType orgName).outcome =
        Outcome.returned (env.CreateNamespace name a2 (env.ToUpper a1))) ∧
    (∀ a0, opts.args[0]? = some a0 →
      confirmationsAsked (createNamespace env opts) = [] ∧
      (∀ s, providedOrgID opts = some s → env.uuidParse s = true →
        remoteCalls (createNamespace env opts) = [NsEvent.CreateNamespaceWithOwnerID a0 s] ∧
        (createNamespace env opts).outcome =
          Outcome.returned (env.CreateNamespaceWithOwnerID a0 s)) ∧
      (∀ a1 a2, providedOrgID opts = none → opts.args = [a0, a1, a2] →
        remoteCalls (createNamespace env opts) =
          [NsEvent.CreateNamespace a0 a2 (env.ToUpper a1)] ∧
        (createNamespace env opts).outcome =
          Outcome.returned (env.CreateNamespace a0 a2 (env.ToUpper a1))) ∧
      (selectsCreationPath env opts = false →
        createNamespace env opts = showHelp env ∧
        remoteCalls (createNamespace env opts) = [])) := by
  refine ⟨?_, ?_, ?_, ?_, ?_⟩
  · intro a0 h0
    simp [deleteNamespaceAlias, h0, confirmThen_noPrompt, hnp, Run.emit, Run.ret]
  · intro a0 a1 h0 h1
    cases hres : env.RenameNamespace a0 a1 <;>
      simp [renameNamespace, h0, h1, confirmThen_noPrompt, hnp, hres, remoteCalls,
        confirmationsAsked, Run.emit, Run.ret, NsEvent.isRemote]
  · intro name orgId
    exact createNamespaceWithOrgId_noPrompt env opts name orgId hnp
  · intro name vcsType orgName a1 a2 h1 h2
    exact createNamespaceWithVcsTypeAndOrgName_noPrompt env opts name vcsType orgName a1 a2
      h1 h2 hnp
  · intro a0 h0
    rw [createNamespace_of_args env opts a0 h0]
    unfold selectsCreationPath
    cases hp : providedOrgID opts with
    | some s =>
      by_cases hu : env.uuidParse s = true
      · have := createNamespaceWithOrgId_noPrompt env opts a0 s hnp
        simp [hu, this]
      · simp [hu, showHelp, remoteCalls, confirmationsAsked, Run.emit, Run.ret,
          NsEvent.isRemote]
    | none =>
      by_cases h3 : opts.args.length = 3
      · obtain ⟨b0, b1, b2, rest, hargs⟩ := exists_arg2 opts.args (by omega)
        have hrest : rest = [] := by
          rw [hargs] at h3
          simpa using h3
        subst hrest
        have := createNamespaceWithVcsTypeAndOrgName_noPrompt env opts a0
          (opts.args.getD 1 "") (opts.args.getD 2 "") b1 b2 (by simp [hargs]) (by simp [hargs]) hnp
        simp only [h3, if_true, this, true_and]
        refine ⟨by simp, ?_, by simp⟩
        intro a1 a2 _ hargs2
        rw [hargs] at hargs2
        simp only [List.cons.injEq, and_true] at hargs2
        obtain ⟨_, rfl, rfl⟩ := hargs2
        exact ⟨rfl, rfl⟩
      · simp only [h3, if_false]
        refine ⟨by simp [showHelp, confirmationsAsked, Run.emit, Run.ret], by simp, ?_, ?_⟩
        · intro a1 a2 _ hargs
          rw [hargs] at h3
          simp at h3
        · intro _
          simp [showHelp, remoteCalls, Run.emit, Run.ret, NsEvent.isRemote]

/-- C8, witness: `noPrompt` with a user interface that would answer false. -/
theorem noPrompt_skips_confirmation_witness :
    deleteNamespaceAlias sampleNamespaceEnv
        ⟨["old"], true, none, createNamespaceTestUI false, false⟩ =
      ⟨[NsEvent.DeleteNamespaceAlias "old"], Outcome.returned none⟩ ∧
    remoteCalls (createNamespace sampleNamespaceEnv
        ⟨["ns", "github", "org"], true, none, createNamespaceTestUI false, false⟩) =
      [NsEvent.CreateNamespace "ns" "org" "GITHUB"] :=
  ⟨(noPrompt_skips_confirmation sampleNamespaceEnv
      ⟨["old"], true, none, createNamespaceTestUI false, false⟩ rfl).1 "old" rfl,
   (((noPrompt_skips_confirmation sampleNamespaceEnv
      ⟨["ns", "github", "org"], true, none, createNamespaceTestUI false, false⟩ rfl).2.2.2.2
      "ns" rfl).2.2.1 "github" "org" (by decide) rfl).1⟩

/-- C8, counterexample to the claim as stated: `noPrompt` is set, one positional
argument and no org-id are given, and `createNamespace` makes no registry call at all;
it shows the help. -/
theorem createNamespace_noPrompt_help_makes_no_remote_call :
    (⟨["ns"], true, none, createNamespaceTestUI true, false⟩ : namespaceOptions).noPrompt = true ∧
    createNamespace sampleNamespaceEnv
        ⟨["ns"], true, none, createNamespaceTestUI true, false⟩ =
      ⟨[NsEvent.Help], Outcome.returned none⟩ ∧
    remoteCalls (createNamespace sampleNamespaceEnv
        ⟨["ns"], true, none, createNamespaceTestUI true, false⟩) = [] := by
  refine ⟨rfl, by decide, by decide⟩

/-- C10.  When the org-id is supplied (non-blank) and `uuid.Parse` accepts it, and
confirmation is granted or `noPrompt` is set, `createNamespace` is
`createNamespaceWithOrgId` on `args[0]` and that org-id: its only registry call is one
`CreateNamespaceWithOwnerID args[0] orgID`, so `CreateNamespace` is never called, and it
returns that call's error, whatever further positional arguments follow `args[0]`. -/
theorem createNamespace_by_orgID (env : NamespaceEnv) (opts : namespaceOptions)
    (name orgID : String) (hname : opts.args[0]? = some name)
    (horg : opts.orgID = some orgID) (hsupplied : TrimSpace orgID ≠ "")
    (hparse : env.uuidParse orgID = true)
    (hgo : opts.noPrompt = true ∨ ∀ m, opts.tty.askUserToConfirm m = true) :
    createNamespace env opts = createNamespaceWithOrgId env opts name orgID ∧
    remoteCalls (createNamespace env opts) = [NsEvent.CreateNamespaceWithOwnerID name orgID] ∧
    (createNamespace env opts).outcome =
      Outcome.returned (env.CreateNamespaceWithOwnerID name orgID) := by
  have hrun : createNamespace env opts = createNamespaceWithOrgId env opts name orgID := by
    rw [createNamespace_of_args env opts name hname,
      providedOrgID_eq_some opts orgID horg hsupplied]
    simp [hparse]
  refine ⟨hrun, ?_⟩
  rw [hrun]
  cases hnp : opts.noPrompt with
  | true =>
    have := createNamespaceWithOrgId_noPrompt env opts name orgID hnp
    exact ⟨this.1, this.2.2⟩
  | false =>
    rcases hgo with h | h
    · rw [hnp] at h
      cases h
    · exact createNamespaceWithOrgId_granted env opts name orgID hnp h

/-- C10, witness: a valid org-id with one, and with three, positional arguments. -/
theorem createNamespace_by_orgID_witness :
    remoteCalls (createNamespace sampleNamespaceEnv
        ⟨["ns"], true, some "bb604b45-b6b0-4b81-ad80-796f15eddf87",
          createNamespaceTestUI false, false⟩) =
      [NsEvent.CreateNamespaceWithOwnerID "ns" "bb604b45-b6b0-4b81-ad80-796f15eddf87"] ∧
    remoteCalls (createNamespace sampleNamespaceEnv
        ⟨["ns", "github", "org"], false, some "bb604b45-b6b0-4b81-ad80-796f15eddf87",
          createNamespaceTestUI true, false⟩) =
      [NsEvent.CreateNamespaceWithOwnerID "ns" "bb604b45-b6b0-4b81-ad80-796f15eddf87"] :=
  ⟨(createNamespace_by_orgID sampleNamespaceEnv
      ⟨["ns"], true, some "bb604b45-b6b0-4b81-ad80-796f15eddf87",
        createNamespaceTestUI false, false⟩
      "ns" "bb604b45-b6b0-4b81-ad80-796f15eddf87" rfl rfl (by decide) (by decide)
      (Or.inl rfl)).2.1,
   (createNamespace_by_orgID sampleNamespaceEnv
      ⟨["ns", "github", "org"], false, some "bb604b45-b6b0-4b81-ad80-796f15eddf87",
        createNamespaceTestUI true, false⟩
      "ns" "bb604b45-b6b0-4b81-ad80-796f15eddf87" rfl rfl (by decide) (by decide)
      (Or.inr (fun _ => rfl))).2.1⟩

/-! ## Theorems: `policy update` -/

/-- A text that starts with a different character than `q` is not `q`, whatever is
appended to it. -/
theorem append_ne_of_head_ne (p q e : String) (h : p.data.head? ≠ q.data.head?)
    (hp : p.data ≠ []) : p ++ e ≠ q := by
  intro heq
  apply h
  rw [← heq]
  simp only [String.data_append]
  cases hd : p.data with
  | nil => exact absurd hd hp
  | cons c cs => simp

/-- The tail of `update.RunE` never returns the usage error. -/
theorem updateSend_outcome_ne_usage (env : PolicyEnv) (ownerID : String) (flags : UpdateFlags)
    (args : List String) (updateRequest : UpdateRequest) :
    (updateSend env ownerID flags args updateRequest).outcome ≠
      Outcome.returned (some "one of policy, active, context, or name must be set") := by
  unfold updateSend
  simp only
  cases args[0]? with
  | none => simp [Run.panic]
  | some policyID =>
    simp only [Run.emit]
    split
    · simp only [Run.ret, ne_eq, Outcome.returned.injEq, Option.some.injEq]
      exact append_ne_of_head_ne _ _ _ (by decide) (by decide)
    · simp only
      split
      · simp only [Run.ret, ne_eq, Outcome.returned.injEq, Option.some.injEq]
        exact append_ne_of_head_ne _ _ _ (by decide) (by decide)
      · simp [Run.ret]

/-- The request that the tail of `update.RunE` sends: the incoming request with the
fields of the set flags overwritten. -/
theorem updateSend_calls (env : PolicyEnv) (ownerID : String) (flags : UpdateFlags)
    (args : List String) (updateRequest : UpdateRequest) (policyID : String)
    (hargs : args[0]? = some policyID) :
    updatePolicyCalls (updateSend env ownerID flags args updateRequest).trace =
      [(ownerID, policyID,
        ⟨updateRequest.Content, flags.active.orElse (fun _ => updateRequest.Active),
         flags.context.orElse (fun _ => updateRequest.Context),
         flags.name.orElse (fun _ => updateRequest.Name)⟩)] := by
  unfold updateSend
  simp only [hargs]
  cases flags.active <;> cases flags.context <;> cases flags.name <;>
    cases env.UpdatePolicy ownerID policyID _ <;>
    simp [updatePolicyCalls, Run.emit, Run.ret, Option.orElse] <;>
    split <;> simp

/-- C3.  When none of the flags policy, active, context, name was set, `update.RunE`
returns the error "one of policy, active, context, or name must be set" and does
nothing else: its trace is empty, so no file is read and `UpdatePolicy` is not called.
When at least one of the four was set, it does not return that error. -/
theorem update_requires_a_flag (env : PolicyEnv) (ownerID : String) (flags : UpdateFlags)
    (args : List String) (updateRequest : UpdateRequest) :
    (flags.policy = none → flags.active = none → flags.context = none → flags.name = none →
      updateRunE env ownerID flags args updateRequest =
        ⟨[], Outcome.returned (some "one of policy, active, context, or name must be set")⟩) ∧
    ((flags.policy ≠ none ∨ flags.active ≠ none ∨ flags.context ≠ none ∨ flags.name ≠ none) →
      (updateRunE env ownerID flags args updateRequest).outcome ≠
        Outcome.returned (some "one of policy, active, context, or name must be set")) := by
  constructor
  · intro h1 h2 h3 h4
    simp [updateRunE, h1, h2, h3, h4, Run.ret]
  · intro h
    have hset : (flags.policy.isSome || flags.active.isSome || flags.context.isSome ||
        flags.name.isSome) = true := by
      rcases h with h | h | h | h <;>
        simp [Option.isSome_iff_ne_none.mpr h]
    simp only [updateRunE, hset, Bool.not_true, Bool.false_eq_true, if_false]
    cases flags.policy with
    | none => exact updateSend_outcome_ne_usage env ownerID flags args updateRequest
    | some policyPath =>
      simp only [Run.emit]
      split
      · simp only [Run.ret, ne_eq, Outcome.returned.injEq, Option.some.injEq]
        exact append_ne_of_head_ne _ _ _ (by decide) (by decide)
      · exact updateSend_outcome_ne_usage env ownerID flags args _

/-- C3, witness: no flag at all, and `--active=false` alone. -/
theorem update_requires_a_flag_witness :
    update (samplePolicyEnv []) "owner" ⟨none, none, none, none⟩ ["policy-id"] =
      ⟨[], Outcome.returned (some "one of policy, active, context, or name must be set")⟩ ∧
    (update (samplePolicyEnv []) "owner" ⟨none, some false, none, none⟩ ["policy-id"]).outcome ≠
      Outcome.returned (some "one of policy, active, context, or name must be set") :=
  ⟨(update_requires_a_flag (samplePolicyEnv []) "owner" ⟨none, none, none, none⟩
      ["policy-id"] ⟨none, none, none, none⟩).1 rfl rfl rfl rfl,
   (update_requires_a_flag (samplePolicyEnv []) "owner" ⟨none, some false, none, none⟩
      ["policy-id"] ⟨none, none, none, none⟩).2 (Or.inr (Or.inl (by decide)))⟩

/-- C6.  In an invocation of `policy update` with at least one of the four flags set,
the policy identifier present, and the policy file (if `--policy` was set) readable,
`UpdatePolicy` is called exactly once, and in the request it receives `Active`,
`Context` and `Name` are exactly the flags as set (absent when the flag was not set,
present with the supplied value otherwise, `false` and the empty string included),
while `Content` is present exactly when `--policy` was set and then holds the contents
of the file at that path. -/
theorem update_request_presence (env : PolicyEnv) (ownerID : String) (flags : UpdateFlags)
    (args : List String) (policyID : String)
    (hflag : flags.policy ≠ none ∨ flags.active ≠ none ∨ flags.context ≠ none ∨
      flags.name ≠ none)
    (hargs : args[0]? = some policyID)
    (hread : ∀ path, flags.policy = some path → ∃ data, env.ReadFile path = .ok data) :
    ∃ request, updatePolicyCalls (update env ownerID flags args).trace =
        [(ownerID, policyID, request)] ∧
      request.Active = flags.active ∧ request.Context = flags.context ∧
      request.Name = flags.name ∧
      (request.Content = none ↔ flags.policy = none) ∧
      (∀ path data, flags.policy = some path → env.ReadFile path = .ok data →
        request.Content = some data) := by
  have hset : (flags.policy.isSome || flags.active.isSome || flags.context.isSome ||
      flags.name.isSome) = true := by
    rcases hflag with h | h | h | h <;>
      simp [Option.isSome_iff_ne_none.mpr h]
  simp only [update, updateRunE, hset, Bool.not_true, Bool.false_eq_true, if_false]
  cases hp : flags.policy with
  | none =>
    refine ⟨_, updateSend_calls env ownerID flags args _ policyID hargs, ?_⟩
    cases flags.active <;> cases flags.context <;> cases flags.name <;> simp [Option.orElse]
  | some policyPath =>
    obtain ⟨data, hdata⟩ := hread policyPath hp
    simp only [hdata, Run.emit]
    have hsend := updateSend_calls env ownerID flags args ⟨some data, none, none, none⟩
      policyID hargs
    have hskip : updatePolicyCalls (PolicyEvent.ReadFile policyPath ::
        (updateSend env ownerID flags args ⟨some data, none, none, none⟩).trace) =
        updatePolicyCalls
          (updateSend env ownerID flags args ⟨some data, none, none, none⟩).trace := rfl
    have hcontent : ∀ path data2, policyPath = path → env.ReadFile path = .ok data2 →
        data = data2 := by
      intro path data2 hpath hdata2
      subst hpath
      rw [hdata] at hdata2
      exact Except.ok.inj hdata2
    refine ⟨_, hskip.trans hsend, ?_⟩
    cases flags.active <;> cases flags.context <;> cases flags.name <;>
      simpa [Option.orElse] using hcontent

/-- C6, witness: `--active=false --context ""` sends a present `Active` equal to
`false` and a present empty `Context`, and leaves `Content` and `Name` absent. -/
theorem update_request_presence_witness :
    ∃ request,
      updatePolicyCalls
          (update (samplePolicyEnv []) "owner" ⟨none, some false, some "", none⟩
            ["policy-id"]).trace = [("owner", "policy-id", request)] ∧
      request.Active = some false ∧ request.Context = some "" ∧ request.Name = none ∧
      (request.Content = none ↔ (none : Option String) = none) ∧
      (∀ path data, (none : Option String) = some path →
        (samplePolicyEnv []).ReadFile path = .ok data → request.Content = some data) :=
  update_request_presence (samplePolicyEnv []) "owner" ⟨none, some false, some "", none⟩
    ["policy-id"] "policy-id" (Or.inr (Or.inl (by decide))) rfl
    (fun _ h => nomatch h)

/-! ## Theorems: `policy logs` -/

/-- A deferred step does not change how the function ends. -/
theorem Run.outcome_defer {ε α : Type} (e : ε) (r : Run ε α) :
    (Run.defer e r).outcome = r.outcome := by
  unfold Run.defer
  split <;> rfl

/-- The loop never hands anything to the encoder. -/
theorem fetchLoop_encodedLogs (env : PolicyEnv) (ownerID : String) :
    ∀ (fuel calls : Nat) (request : DecisionQueryRequest) (allLogs : List Value),
      encodedLogs (fetchLoop env ownerID fuel calls request allLogs).trace = [] := by
  intro fuel
  induction fuel with
  | zero => intro calls request allLogs; rfl
  | succ fuel ih =>
    intro calls request allLogs
    simp only [fetchLoop, Run.emit]
    cases env.GetDecisionLogs calls ownerID request with
    | error err => rfl
    | ok logsBatch =>
      by_cases hlen : logsBatch.length = 0
      · simp [hlen, Run.ret, encodedLogs]
      · simp only [hlen, if_false]
        exact ih _ _ _

/-- The loop does not panic. -/
theorem fetchLoop_outcome_ne_panicked (env : PolicyEnv) (ownerID : String) :
    ∀ (fuel calls : Nat) (request : DecisionQueryRequest) (allLogs : List Value),
      (fetchLoop env ownerID fuel calls request allLogs).outcome ≠ Outcome.panicked := by
  intro fuel
  induction fuel with
  | zero => intro calls request allLogs; simp [fetchLoop]
  | succ fuel ih =>
    intro calls request allLogs
    simp only [fetchLoop, Run.emit]
    cases env.GetDecisionLogs calls ownerID request with
    | error err => simp [Run.ret]
    | ok logsBatch =>
      by_cases hlen : logsBatch.length = 0
      · simp [hlen, Run.ret]
      · simp only [hlen, if_false]
        exact ih _ _ _

/-- Offsets inside the loop: when the loop starts with `request.Offset = len(allLogs)`,
the request of its call number `k` (from 0) carries `len(allLogs)` plus the sizes of
the pages answered to its calls before `k`. -/
theorem fetchLoop_offsets (env : PolicyEnv) (ownerID : String) :
    ∀ (fuel calls : Nat) (request : DecisionQueryRequest) (allLogs : List Value),
      request.Offset = allLogs.length →
      ∀ (k : Nat) (req : DecisionQueryRequest) (resp : LogsResponse),
        (decisionLogCalls (fetchLoop env ownerID fuel calls request allLogs).trace)[k]? =
          some (req, resp) →
        req.Offset = allLogs.length +
          (((decisionLogCalls (fetchLoop env ownerID fuel calls request allLogs).trace).take k).map
            (fun c => c.2.size)).sum := by
  intro fuel
  induction fuel with
  | zero =>
    intro calls request allLogs _ k req resp hk
    simp [fetchLoop, decisionLogCalls] at hk
  | succ fuel ih =>
    intro calls request allLogs hoff k req resp hk
    simp only [fetchLoop, Run.emit, decisionLogCalls, List.filterMap_cons] at hk ⊢
    cases k with
    | zero =>
      simp only [List.getElem?_cons_zero, Option.some.injEq, Prod.mk.injEq] at hk
      simp [← hk.1, hoff]
    | succ k =>
      simp only [List.getElem?_cons_succ] at hk
      simp only [List.take_succ_cons, List.map_cons, List.sum_cons]
      cases hresp : env.GetDecisionLogs calls ownerID request with
      | error err => simp [hresp, Run.ret] at hk
      | ok logsBatch =>
        by_cases hlen : logsBatch.length = 0
        · simp [hresp, hlen, Run.ret] at hk
        · simp only [hresp, hlen, if_false] at hk ⊢
          have := ih (calls + 1) { request with Offset := (allLogs ++ logsBatch).length }
            (allLogs ++ logsBatch) rfl k req resp hk
          rw [this]
          simp only [decisionLogCalls, List.length_append, LogsResponse.size]
          omega

/-- Non-empty pages followed by an empty page.  The loop starts with the request
`⟨after, before, branch, projectID, len(allLogs)⟩`.  Only the answers to the requests
the loop really sends are assumed: call `k` carries offset `len(allLogs)` plus the sizes
of the pages before `k` and is answered with page `k`; the call after the last page is
answered with an empty page.  With fuel for one call more than there are pages, the
loop makes exactly those calls, with exactly those requests and answers, and breaks
with the pages appended to `allLogs` in order. -/
theorem fetchLoop_pages (env : PolicyEnv) (ownerID : String) (after before : Option Time)
    (branch projectID : String) :
    ∀ (pages : List (List Value)) (fuel calls : Nat) (allLogs : List Value),
      (∀ p ∈ pages, p ≠ []) →
      (∀ k p, pages[k]? = some p →
        env.GetDecisionLogs (calls + k) ownerID
          ⟨after, before, branch, projectID,
            allLogs.length + ((pages.take k).map List.length).sum⟩ = .ok p) →
      env.GetDecisionLogs (calls + pages.length) ownerID
        ⟨after, before, branch, projectID,
          allLogs.length + (pages.map List.length).sum⟩ = .ok [] →
      pages.length < fuel →
      (fetchLoop env ownerID fuel calls
          ⟨after, before, branch, projectID, allLogs.length⟩ allLogs).outcome =
        Outcome.returned (.ok (allLogs ++ pages.flatten)) ∧
      (decisionLogCalls (fetchLoop env ownerID fuel calls
          ⟨after, before, branch, projectID, allLogs.length⟩ allLogs).trace).map
        (fun c => c.2) = pages.map LogsResponse.ok ++ [LogsResponse.ok []] ∧
      (decisionLogCalls (fetchLoop env ownerID fuel calls
          ⟨after, before, branch, projectID, allLogs.length⟩ allLogs).trace).map
        (fun c => c.1) =
        (List.range (pages.length + 1)).map (fun k =>
          (⟨after, before, branch, projectID,
            allLogs.length + ((pages.take k).map List.length).sum⟩ : DecisionQueryRequest)) := by
  intro pages
  induction pages with
  | nil =>
    intro fuel calls allLogs _ _ hlast hfuel
    obtain ⟨fuel, rfl⟩ : ∃ n, fuel = n + 1 := ⟨fuel - 1, by simp at hfuel; omega⟩
    simp only [List.length_nil, Nat.add_zero, List.map_nil, List.sum_nil] at hlast
    simp [fetchLoop, hlast, Run.emit, Run.ret, decisionLogCalls]
  | cons p pages ih =>
    intro fuel calls allLogs hne hresp hlast hfuel
    obtain ⟨fuel, rfl⟩ : ∃ n, fuel = n + 1 := ⟨fuel - 1, by simp at hfuel; omega⟩
    have h0 := hresp 0 p (by simp)
    simp only [Nat.add_zero, List.take_zero, List.map_nil, List.sum_nil] at h0
    have hp : p.length ≠ 0 := by
      have := hne p (List.mem_cons_self _ _)
      simpa [List.length_eq_zero] using this
    have hstep := ih fuel (calls + 1) (allLogs ++ p)
      (fun q hq => hne q (List.mem_cons_of_mem _ hq))
      (fun k q hq => by
        have h := hresp (k + 1) q (by simpa using hq)
        have e1 : calls + (k + 1) = calls + 1 + k := by omega
        have e2 : allLogs.length + (((p :: pages).take (k + 1)).map List.length).sum =
            (allLogs ++ p).length + ((pages.take k).map List.length).sum := by
          simp only [List.take_succ_cons, List.map_cons, List.sum_cons, List.length_append]
          omega
        rw [e1, e2] at h
        exact h)
      (by
        have e1 : calls + (p :: pages).length = calls + 1 + pages.length := by
          simp only [List.length_cons]
          omega
        have e2 : allLogs.length + ((p :: pages).map List.length).sum =
            (allLogs ++ p).length + (pages.map List.length).sum := by
          simp only [List.map_cons, List.sum_cons, List.length_append]
          omega
        rw [e1, e2] at hlast
        exact hlast)
      (by simp at hfuel; omega)
    have hfun : (fun k => (⟨after, before, branch, projectID,
          allLogs.length + (((p :: pages).take (k + 1)).map List.length).sum⟩ :
          DecisionQueryRequest)) =
        (fun k => (⟨after, before, branch, projectID,
          (allLogs ++ p).length + ((pages.take k).map List.length).sum⟩ :
          DecisionQueryRequest)) := by
      funext k
      simp only [List.take_succ_cons, List.map_cons, List.sum_cons, List.length_append,
        Nat.add_assoc]
    obtain ⟨h1, h2, h3⟩ := hstep
    simp only [decisionLogCalls] at h2 h3
    simp only [fetchLoop, h0, hp, if_false, Run.emit, decisionLogCalls, List.filterMap_cons,
      List.map_cons, List.flatten_cons, List.cons_append, List.length_cons]
    refine ⟨?_, ?_, ?_⟩
    · rw [h1, List.append_assoc]
    · rw [h2]
    · rw [List.range_succ_eq_map, List.map_cons, List.map_map]
      simp only [List.take_zero, List.map_nil, List.sum_nil, Nat.add_zero, List.cons.injEq,
        true_and]
      rw [h3]
      exact congrArg (fun f => List.map f (List.range (pages.length + 1))) hfun.symm

/-- Every request of the loop carries the filters of the request it started with. -/
theorem fetchLoop_filters (env : PolicyEnv) (ownerID : String) :
    ∀ (fuel calls : Nat) (request : DecisionQueryRequest) (allLogs : List Value),
      ∀ c ∈ decisionLogCalls (fetchLoop env ownerID fuel calls request allLogs).trace,
        c.1.After = request.After ∧ c.1.Before = request.Before := by
  intro fuel
  induction fuel with
  | zero =>
    intro calls request allLogs c hc
    simp [fetchLoop, decisionLogCalls] at hc
  | succ fuel ih =>
    intro calls request allLogs c hc
    simp only [fetchLoop, Run.emit, decisionLogCalls, List.filterMap_cons, List.mem_cons] at hc
    rcases hc with hc | hc
    · simp [hc]
    · cases hresp : env.GetDecisionLogs calls ownerID request with
      | error err => simp [hresp, Run.ret] at hc
      | ok logsBatch =>
        by_cases hlen : logsBatch.length = 0
        · simp [hresp, hlen, Run.ret] at hc
        · simp only [hresp, hlen, if_false] at hc
          exact ih (calls + 1) { request with Offset := (allLogs ++ logsBatch).length }
            (allLogs ++ logsBatch) c hc

/-- The loop parses no date and creates no file. -/
theorem fetchLoop_parsedFlags (env : PolicyEnv) (ownerID : String) :
    ∀ (fuel calls : Nat) (request : DecisionQueryRequest) (allLogs : List Value),
      parsedFlags (fetchLoop env ownerID fuel calls request allLogs).trace = [] := by
  intro fuel
  induction fuel with
  | zero => intro calls request allLogs; rfl
  | succ fuel ih =>
    intro calls request allLogs
    simp only [fetchLoop, Run.emit]
    cases env.GetDecisionLogs calls ownerID request with
    | error err => rfl
    | ok logsBatch =>
      by_cases hlen : logsBatch.length = 0
      · simp [hlen, Run.ret, parsedFlags]
      · simp only [hlen, if_false]
        exact ih _ _ _

/-- The calls of `logsFetch` are those of its loop. -/
theorem logsFetch_calls (env : PolicyEnv) (ownerID : String) (dst : Sink)
    (request : DecisionQueryRequest) (fuel : Nat) :
    decisionLogCalls (logsFetch env ownerID dst request fuel).trace =
      decisionLogCalls (fetchLoop env ownerID fuel 0 request []).trace := by
  unfold logsFetch
  generalize fetchLoop env ownerID fuel 0 request [] = r
  obtain ⟨t, oc⟩ := r
  cases oc with
  | returned v =>
    cases v with
    | error msg => simp [Run.emit, Run.defer, Run.bind, Run.ret, decisionLogCalls]
    | ok allLogs =>
      cases hE : env.EncodeLogs dst allLogs <;>
        simp [Run.emit, Run.defer, Run.bind, Run.ret, decisionLogCalls, hE]
  | panicked => simp [Run.emit, Run.defer, Run.bind, decisionLogCalls]
  | outOfFuel => simp [Run.emit, Run.defer, Run.bind, decisionLogCalls]

/-- No date is parsed by `logsFetch`. -/
theorem logsFetch_parsedFlags (env : PolicyEnv) (ownerID : String) (dst : Sink)
    (request : DecisionQueryRequest) (fuel : Nat) :
    parsedFlags (logsFetch env ownerID dst request fuel).trace = [] := by
  have h := fetchLoop_parsedFlags env ownerID fuel 0 request []
  unfold logsFetch
  generalize fetchLoop env ownerID fuel 0 request [] = r at h
  obtain ⟨t, oc⟩ := r
  simp only at h
  cases oc with
  | returned v =>
    cases v with
    | error msg => simp [Run.emit, Run.defer, Run.bind, Run.ret, parsedFlags] at h ⊢; exact h
    | ok allLogs =>
      cases hE : env.EncodeLogs dst allLogs <;>
        (simp [Run.emit, Run.defer, Run.bind, Run.ret, parsedFlags, hE] at h ⊢; exact h)
  | panicked => simp [Run.emit, Run.defer, Run.bind, parsedFlags] at h ⊢; exact h
  | outOfFuel => simp [Run.emit, Run.defer, Run.bind, parsedFlags] at h ⊢; exact h

/-- When the loop breaks with `allLogs`, `logsFetch` encodes `allLogs` once, to `dst`,
and returns nil unless the encoder fails. -/
theorem logsFetch_of_ok (env : PolicyEnv) (ownerID : String) (dst : Sink)
    (request : DecisionQueryRequest) (fuel : Nat) (allLogs : List Value)
    (hloop : (fetchLoop env ownerID fuel 0 request []).outcome =
      Outcome.returned (.ok allLogs)) :
    encodedLogs (logsFetch env ownerID dst request fuel).trace = [(dst, allLogs)] ∧
    (logsFetch env ownerID dst request fuel).outcome =
      Outcome.returned ((env.EncodeLogs dst allLogs).map
        (fun err => "failed to output policy decision logs in json format: " ++ err)) := by
  have h := fetchLoop_encodedLogs env ownerID fuel 0 request []
  unfold logsFetch
  generalize fetchLoop env ownerID fuel 0 request [] = r at h hloop
  obtain ⟨t, oc⟩ := r
  simp only at h hloop
  subst hloop
  cases hE : env.EncodeLogs dst allLogs <;>
    (simp [Run.emit, Run.defer, Run.bind, Run.ret, encodedLogs, List.filterMap_append, hE] at h ⊢
     exact h)

/-- A deferred `Close` is neither a `GetDecisionLogs` call, nor an encoding, nor a
date parse. -/
theorem defer_close_projections (path : String) (r : PolicyRun) :
    decisionLogCalls (Run.defer (.Close path) r).trace = decisionLogCalls r.trace ∧
    encodedLogs (Run.defer (.Close path) r).trace = encodedLogs r.trace ∧
    parsedFlags (Run.defer (.Close path) r).trace = parsedFlags r.trace := by
  unfold Run.defer
  split <;> simp [decisionLogCalls, encodedLogs, parsedFlags, List.filterMap_append]

/-- The function `logsOutput` either fails to create the file, with no call and no encoding, or
behaves as `logsFetch` on the sink chosen by `--out`. -/
theorem logsOutput_shape (env : PolicyEnv) (ownerID : String) (flags : LogsFlags)
    (request : DecisionQueryRequest) (fuel : Nat) :
    parsedFlags (logsOutput env ownerID flags request fuel).trace = [] ∧
    ((flags.out ≠ "" ∧ (∃ err, env.Create flags.out = some err) ∧
      decisionLogCalls (logsOutput env ownerID flags request fuel).trace = [] ∧
      encodedLogs (logsOutput env ownerID flags request fuel).trace = []) ∨
     ((flags.out ≠ "" → env.Create flags.out = none) ∧
      decisionLogCalls (logsOutput env ownerID flags request fuel).trace =
        decisionLogCalls (logsFetch env ownerID (logsSink flags) request fuel).trace ∧
      encodedLogs (logsOutput env ownerID flags request fuel).trace =
        encodedLogs (logsFetch env ownerID (logsSink flags) request fuel).trace ∧
      (logsOutput env ownerID flags request fuel).outcome =
        (logsFetch env ownerID (logsSink flags) request fuel).outcome)) := by
  unfold logsOutput logsSink
  by_cases hout : flags.out = ""
  · simp [hout, logsFetch_parsedFlags]
  · have hb : (flags.out != "") = true := by simpa using hout
    simp only [hb, if_true]
    cases hc : env.Create flags.out with
    | some err =>
      simp [Run.emit, Run.ret, decisionLogCalls, encodedLogs, parsedFlags, hout]
    | none =>
      obtain ⟨hd1, hd2, hd3⟩ := defer_close_projections flags.out
        (logsFetch env ownerID (Sink.file flags.out) request fuel)
      refine ⟨?_, Or.inr ⟨fun _ => rfl, ?_, ?_, ?_⟩⟩
      · exact hd3.trans (logsFetch_parsedFlags env ownerID _ request fuel)
      · exact hd1
      · exact hd2
      · exact Run.outcome_defer _ _

/-- An option is `none` or `some`. -/
theorem option_cases {α : Type} (o : Option α) : o = none ∨ ∃ x, o = some x := by
  cases o with
  | none => exact Or.inl rfl
  | some x => exact Or.inr ⟨x, rfl⟩

/-- A parse fails or succeeds. -/
theorem parse_cases (r : Except String Time) : (∃ err, r = .error err) ∨ ∃ t, r = .ok t := by
  cases r with
  | error err => exact Or.inl ⟨err, rfl⟩
  | ok t => exact Or.inr ⟨t, rfl⟩

/-- Flag `--before` not set: nothing is parsed for it. -/
theorem logsBefore_unset (env : PolicyEnv) (ownerID : String) (flags : LogsFlags)
    (request : DecisionQueryRequest) (fuel : Nat) (h : flags.before = none) :
    logsBefore env ownerID flags request fuel = logsOutput env ownerID flags request fuel := by
  simp [logsBefore, h]

/-- Flag `--before` rejected: the error return of the second block. -/
theorem logsBefore_rejected (env : PolicyEnv) (ownerID : String) (flags : LogsFlags)
    (request : DecisionQueryRequest) (fuel : Nat) (before err : String)
    (h : flags.before = some before) (hp : env.ParseStrict before = .error err) :
    logsBefore env ownerID flags request fuel =
      ⟨[.ParseStrict .before before],
       Outcome.returned (some ("error in parsing --before value: " ++ err))⟩ := by
  simp [logsBefore, h, hp, Run.emit, Run.ret]

/-- Flag `--before` accepted: the filter is stored and the function goes on. -/
theorem logsBefore_accepted (env : PolicyEnv) (ownerID : String) (flags : LogsFlags)
    (request : DecisionQueryRequest) (fuel : Nat) (before : String) (t : Time)
    (h : flags.before = some before) (hp : env.ParseStrict before = .ok t) :
    logsBefore env ownerID flags request fuel =
      Run.emit (.ParseStrict .before before)
        (logsOutput env ownerID flags { request with Before := some t } fuel) := by
  simp [logsBefore, h, hp]

/-- Flag `--after` not set: nothing is parsed for it. -/
theorem logsRunE_unset (env : PolicyEnv) (ownerID : String) (flags : LogsFlags)
    (request : DecisionQueryRequest) (fuel : Nat) (h : flags.after = none) :
    logsRunE env ownerID flags request fuel = logsBefore env ownerID flags request fuel := by
  simp [logsRunE, h]

/-- Flag `--after` rejected: the error return of the first block. -/
theorem logsRunE_rejected (env : PolicyEnv) (ownerID : String) (flags : LogsFlags)
    (request : DecisionQueryRequest) (fuel : Nat) (after err : String)
    (h : flags.after = some after) (hp : env.ParseStrict after = .error err) :
    logsRunE env ownerID flags request fuel =
      ⟨[.ParseStrict .after after],
       Outcome.returned (some ("error in parsing --after value: " ++ err))⟩ := by
  simp [logsRunE, h, hp, Run.emit, Run.ret]

/-- Flag `--after` accepted: the filter is stored and the function goes on. -/
theorem logsRunE_accepted (env : PolicyEnv) (ownerID : String) (flags : LogsFlags)
    (request : DecisionQueryRequest) (fuel : Nat) (after : String) (t : Time)
    (h : flags.after = some after) (hp : env.ParseStrict after = .ok t) :
    logsRunE env ownerID flags request fuel =
      Run.emit (.ParseStrict .after after)
        (logsBefore env ownerID flags { request with After := some t } fuel) := by
  simp [logsRunE, h, hp]

/-- An invocation `logs` either returns early (a rejected date or a file that cannot be created),
with no call and no encoding, or behaves as `logsFetch` on a request with offset 0
whose filters are absent when their flag was not set. -/
theorem logs_shape (env : PolicyEnv) (ownerID : String) (flags : LogsFlags) (fuel : Nat) :
    LogsShape env ownerID flags fuel (logs env ownerID flags fuel) := by
  have hout : ∀ request : DecisionQueryRequest, request.Offset = 0 →
      (flags.after = none → request.After = none) →
      (flags.before = none → request.Before = none) →
      LogsShape env ownerID flags fuel (logsOutput env ownerID flags request fuel) := by
    intro request hoff ha hb
    rcases (logsOutput_shape env ownerID flags request fuel).2 with
      ⟨h1, h2, h3, h4⟩ | ⟨_, h2, h3, h4⟩
    · exact Or.inl ⟨Or.inr (Or.inr ⟨h1, h2⟩), h3, h4⟩
    · exact Or.inr ⟨request, hoff, ha, hb, h2, h3, h4⟩
  have hbefore : ∀ request : DecisionQueryRequest, request.Offset = 0 →
      (flags.after = none → request.After = none) → request.Before = none →
      LogsShape env ownerID flags fuel (logsBefore env ownerID flags request fuel) := by
    intro request hoff ha hb
    rcases option_cases flags.before with hf | ⟨before, hf⟩
    · rw [logsBefore_unset env ownerID flags request fuel hf]
      exact hout request hoff ha (fun _ => hb)
    · rcases parse_cases (env.ParseStrict before) with ⟨err, hp⟩ | ⟨t, hp⟩
      · rw [logsBefore_rejected env ownerID flags request fuel before err hf hp]
        exact Or.inl ⟨Or.inr (Or.inl ⟨before, err, hf, hp⟩), rfl, rfl⟩
      · rw [logsBefore_accepted env ownerID flags request fuel before t hf hp]
        exact hout { request with Before := some t } hoff ha (fun h => by simp [hf] at h)
  unfold logs
  rcases option_cases flags.after with hf | ⟨after, hf⟩
  · rw [logsRunE_unset env ownerID flags _ fuel hf]
    exact hbefore _ rfl (fun _ => rfl) rfl
  · rcases parse_cases (env.ParseStrict after) with ⟨err, hp⟩ | ⟨t, hp⟩
    · rw [logsRunE_rejected env ownerID flags _ fuel after err hf hp]
      exact Or.inl ⟨Or.inl ⟨after, err, hf, hp⟩, rfl, rfl⟩
    · rw [logsRunE_accepted env ownerID flags _ fuel after t hf hp]
      exact hbefore _ rfl (fun h => by simp [hf] at h) rfl

/-- Every date that `logs` parses is the value of a flag that was set. -/
theorem logs_parsedFlags (env : PolicyEnv) (ownerID : String) (flags : LogsFlags) (fuel : Nat) :
    ∀ p ∈ parsedFlags (logs env ownerID flags fuel).trace,
      (p.1 = DateFlag.after ∧ flags.after = some p.2) ∨
      (p.1 = DateFlag.before ∧ flags.before = some p.2) := by
  have hbefore : ∀ request : DecisionQueryRequest,
      ∀ p ∈ parsedFlags (logsBefore env ownerID flags request fuel).trace,
        p.1 = DateFlag.before ∧ flags.before = some p.2 := by
    intro request p hp
    rcases option_cases flags.before with hf | ⟨before, hf⟩
    · rw [logsBefore_unset env ownerID flags request fuel hf,
        (logsOutput_shape env ownerID flags request fuel).1] at hp
      simp at hp
    · rcases parse_cases (env.ParseStrict before) with ⟨err, hpar⟩ | ⟨t, hpar⟩
      · rw [logsBefore_rejected env ownerID flags request fuel before err hf hpar] at hp
        simp only [parsedFlags, List.filterMap_cons, List.filterMap_nil, List.mem_singleton] at hp
        subst hp
        exact ⟨rfl, hf⟩
      · rw [logsBefore_accepted env ownerID flags request fuel before t hf hpar] at hp
        simp only [Run.emit, parsedFlags, List.filterMap_cons, List.mem_cons] at hp
        have h0 := (logsOutput_shape env ownerID flags { request with Before := some t } fuel).1
        simp only [parsedFlags] at h0
        rw [h0] at hp
        simp only [List.not_mem_nil, or_false] at hp
        subst hp
        exact ⟨rfl, hf⟩
  intro p hp
  unfold logs at hp
  rcases option_cases flags.after with hf | ⟨after, hf⟩
  · rw [logsRunE_unset env ownerID flags _ fuel hf] at hp
    exact Or.inr (hbefore _ p hp)
  · rcases parse_cases (env.ParseStrict after) with ⟨err, hpar⟩ | ⟨t, hpar⟩
    · rw [logsRunE_rejected env ownerID flags _ fuel after err hf hpar] at hp
      simp only [parsedFlags, List.filterMap_cons, List.filterMap_nil, List.mem_singleton] at hp
      subst hp
      exact Or.inl ⟨rfl, hf⟩
    · rw [logsRunE_accepted env ownerID flags _ fuel after t hf hpar] at hp
      simp only [Run.emit, parsedFlags, List.filterMap_cons, List.mem_cons] at hp
      rcases hp with hp | hp
      · subst hp
        exact Or.inl ⟨rfl, hf⟩
      · exact Or.inr (hbefore _ p hp)

/-- C1.  In one invocation of `policy logs`, the request of the `GetDecisionLogs` call
number `k` (counted from 0) carries as offset the sum of the sizes of the pages
answered to the calls before it.  In particular the first call has offset 0, and each
later call has the offset of the call before it plus the size of the page that call
received.  This holds for every policy service, every flag setting and every amount
of fuel. -/
theorem logs_offset_is_sum_of_pages (env : PolicyEnv) (ownerID : String) (flags : LogsFlags)
    (fuel k : Nat) (req : DecisionQueryRequest) (resp : LogsResponse)
    (hk : (decisionLogCalls (logs env ownerID flags fuel).trace)[k]? = some (req, resp)) :
    req.Offset =
      (((decisionLogCalls (logs env ownerID flags fuel).trace).take k).map
        (fun c => c.2.size)).sum ∧
    (k = 0 → req.Offset = 0) ∧
    (∀ j prevReq prevResp, k = j + 1 →
      (decisionLogCalls (logs env ownerID flags fuel).trace)[j]? = some (prevReq, prevResp) →
      req.Offset = prevReq.Offset + prevResp.size) := by
  have hall : ∀ (i : Nat) (r : DecisionQueryRequest) (a : LogsResponse),
      (decisionLogCalls (logs env ownerID flags fuel).trace)[i]? = some (r, a) →
      r.Offset = (((decisionLogCalls (logs env ownerID flags fuel).trace).take i).map
        (fun c => c.2.size)).sum := by
    intro i r a hi
    rcases logs_shape env ownerID flags fuel with ⟨_, hcalls, _⟩ | ⟨request, hoff, _, _, hcalls, _, _⟩
    · rw [hcalls] at hi
      simp at hi
    · rw [hcalls, logsFetch_calls] at hi ⊢
      have := fetchLoop_offsets env ownerID fuel 0 request [] (by simpa using hoff) i r a hi
      simpa using this
  refine ⟨hall k req resp hk, ?_, ?_⟩
  · intro h0
    subst h0
    simpa using hall 0 req resp hk
  · intro j prevReq prevResp hj hprev
    subst hj
    rw [hall (j + 1) req resp hk, hall j prevReq prevResp hprev, List.take_succ, hprev]
    simp

/-- C1, witness: pages of sizes 2 and 1, then an empty page; the third call carries
offset 3. -/
theorem logs_offset_is_sum_of_pages_witness :
    (⟨none, none, "", "", 3⟩ : DecisionQueryRequest).Offset =
      (((decisionLogCalls (logs (samplePolicyEnv [.ok ["a", "b"], .ok ["c"], .ok []]) "owner"
        ⟨none, none, "", "", ""⟩ 10).trace).take 2).map (fun c => c.2.size)).sum :=
  (logs_offset_is_sum_of_pages (samplePolicyEnv [.ok ["a", "b"], .ok ["c"], .ok []]) "owner"
    ⟨none, none, "", "", ""⟩ 10 2 ⟨none, none, "", "", 3⟩ (.ok []) (by decide)).1

/-- When the dates given parse to `after` and `before` and the output file (if any) can
be created, `logs` has the calls, the encodings and the outcome of `logsFetch` on the
request carrying those filters, the bound `--branch` and `--project-id`, and offset 0. -/
theorem logs_reaches_fetch (env : PolicyEnv) (ownerID : String) (flags : LogsFlags)
    (fuel : Nat) (after before : Option Time)
    (hafter : (flags.after = none ∧ after = none) ∨
      ∃ s t, flags.after = some s ∧ env.ParseStrict s = .ok t ∧ after = some t)
    (hbefore : (flags.before = none ∧ before = none) ∨
      ∃ s t, flags.before = some s ∧ env.ParseStrict s = .ok t ∧ before = some t)
    (hcreate : flags.out ≠ "" → env.Create flags.out = none) :
    decisionLogCalls (logs env ownerID flags fuel).trace =
      decisionLogCalls (logsFetch env ownerID (logsSink flags)
        ⟨after, before, flags.branch, flags.projectID, 0⟩ fuel).trace ∧
    encodedLogs (logs env ownerID flags fuel).trace =
      encodedLogs (logsFetch env ownerID (logsSink flags)
        ⟨after, before, flags.branch, flags.projectID, 0⟩ fuel).trace ∧
    (logs env ownerID flags fuel).outcome =
      (logsFetch env ownerID (logsSink flags)
        ⟨after, before, flags.branch, flags.projectID, 0⟩ fuel).outcome := by
  have hout : ∀ request : DecisionQueryRequest,
      decisionLogCalls (logsOutput env ownerID flags request fuel).trace =
        decisionLogCalls (logsFetch env ownerID (logsSink flags) request fuel).trace ∧
      encodedLogs (logsOutput env ownerID flags request fuel).trace =
        encodedLogs (logsFetch env ownerID (logsSink flags) request fuel).trace ∧
      (logsOutput env ownerID flags request fuel).outcome =
        (logsFetch env ownerID (logsSink flags) request fuel).outcome := by
    intro request
    rcases (logsOutput_shape env ownerID flags request fuel).2 with
      ⟨h1, ⟨err, h2⟩, _, _⟩ | ⟨_, h2, h3, h4⟩
    · rw [hcreate h1] at h2
      cases h2
    · exact ⟨h2, h3, h4⟩
  have hbef : ∀ a : Option Time,
      decisionLogCalls
          (logsBefore env ownerID flags ⟨a, none, flags.branch, flags.projectID, 0⟩ fuel).trace =
        decisionLogCalls (logsFetch env ownerID (logsSink flags)
          ⟨a, before, flags.branch, flags.projectID, 0⟩ fuel).trace ∧
      encodedLogs
          (logsBefore env ownerID flags ⟨a, none, flags.branch, flags.projectID, 0⟩ fuel).trace =
        encodedLogs (logsFetch env ownerID (logsSink flags)
          ⟨a, before, flags.branch, flags.projectID, 0⟩ fuel).trace ∧
      (logsBefore env ownerID flags ⟨a, none, flags.branch, flags.projectID, 0⟩ fuel).outcome =
        (logsFetch env ownerID (logsSink flags)
          ⟨a, before, flags.branch, flags.projectID, 0⟩ fuel).outcome := by
    intro a
    rcases hbefore with ⟨hf, hb⟩ | ⟨s, t, hf, hp, hb⟩
    · rw [logsBefore_unset env ownerID flags _ fuel hf, hb]
      exact hout _
    · rw [logsBefore_accepted env ownerID flags _ fuel s t hf hp, hb]
      exact hout ⟨a, some t, flags.branch, flags.projectID, 0⟩
  unfold logs
  rcases hafter with ⟨hf, ha⟩ | ⟨s, t, hf, hp, ha⟩
  · rw [logsRunE_unset env ownerID flags _ fuel hf, ha]
    exact hbef none
  · rw [logsRunE_accepted env ownerID flags _ fuel s t hf hp, ha]
    exact hbef (some t)

/-- C2.  Let the dates given parse (to `after` and `before`) and the output file, if
any, be creatable.  Let the policy service answer the requests that `policy logs`
really sends in one invocation with the non-empty pages `p1, ..., pn` and then with
an empty page: call `k` (from 0) carries the filters of the flags and as offset the
sum of the sizes of the pages before it, and is answered with page `k`; the call with
offset `|p1| + ... + |pn|` is answered with an empty page.  Nothing is assumed about
the answer to any other request.  Then `policy logs` (with fuel for `n + 1`
iterations) makes exactly `n + 1` calls, with exactly those requests and answers, and
hands the encoder exactly one value, the concatenation `p1 ++ ... ++ pn`, whose length
is the sum of the page sizes; it returns nil unless the encoder fails. -/
theorem logs_aggregates_pages (env : PolicyEnv) (ownerID : String) (flags : LogsFlags)
    (fuel : Nat) (pages : List (List Value)) (after before : Option Time)
    (hafter : (flags.after = none ∧ after = none) ∨
      ∃ s t, flags.after = some s ∧ env.ParseStrict s = .ok t ∧ after = some t)
    (hbefore : (flags.before = none ∧ before = none) ∨
      ∃ s t, flags.before = some s ∧ env.ParseStrict s = .ok t ∧ before = some t)
    (hcreate : flags.out ≠ "" → env.Create flags.out = none)
    (hne : ∀ p ∈ pages, p ≠ [])
    (hresp : ∀ k p, pages[k]? = some p →
      env.GetDecisionLogs k ownerID
        ⟨after, before, flags.branch, flags.projectID,
          ((pages.take k).map List.length).sum⟩ = .ok p)
    (hlast : env.GetDecisionLogs pages.length ownerID
      ⟨after, before, flags.branch, flags.projectID, (pages.map List.length).sum⟩ = .ok [])
    (hfuel : pages.length < fuel) :
    (decisionLogCalls (logs env ownerID flags fuel).trace).map (fun c => c.2) =
      pages.map LogsResponse.ok ++ [LogsResponse.ok []] ∧
    (decisionLogCalls (logs env ownerID flags fuel).trace).map (fun c => c.1) =
      (List.range (pages.length + 1)).map (fun k =>
        (⟨after, before, flags.branch, flags.projectID,
          ((pages.take k).map List.length).sum⟩ : DecisionQueryRequest)) ∧
    (decisionLogCalls (logs env ownerID flags fuel).trace).length = pages.length + 1 ∧
    encodedLogs (logs env ownerID flags fuel).trace = [(logsSink flags, pages.flatten)] ∧
    pages.flatten.length = (pages.map List.length).sum ∧
    (logs env ownerID flags fuel).outcome =
      Outcome.returned ((env.EncodeLogs (logsSink flags) pages.flatten).map
        (fun err => "failed to output policy decision logs in json format: " ++ err)) := by
  obtain ⟨hcalls, henc, hout⟩ :=
    logs_reaches_fetch env ownerID flags fuel after before hafter hbefore hcreate
  have hloop := fetchLoop_pages env ownerID after before flags.branch flags.projectID pages
    fuel 0 [] hne
    (fun k p hk => by simpa using hresp k p hk)
    (by simpa using hlast) hfuel
  simp only [List.length_nil, Nat.zero_add, List.nil_append] at hloop
  obtain ⟨hl1, hl2, hl3⟩ := hloop
  have hok := logsFetch_of_ok env ownerID (logsSink flags) _ fuel pages.flatten hl1
  have hresps : (decisionLogCalls (logs env ownerID flags fuel).trace).map (fun c => c.2) =
      pages.map LogsResponse.ok ++ [LogsResponse.ok []] := by
    rw [hcalls, logsFetch_calls]
    exact hl2
  refine ⟨hresps, ?_, ?_, ?_, by simp, ?_⟩
  · rw [hcalls, logsFetch_calls]
    exact hl3
  · have := congrArg List.length hresps
    simpa using this
  · rw [henc]
    exact hok.1
  · rw [hout]
    exact hok.2

/-- C2, witness: a service that pages by offset over three stored entries, two per
page, queried with `--after 2022/03/14`; it answers the offsets 0, 2 and 3 with pages
of sizes 2, 1 and 0, and the three entries are encoded in order. -/
theorem logs_aggregates_pages_witness :
    (decisionLogCalls (logs (pagingPolicyEnv ["a", "b", "c"] 2) "owner"
      ⟨some "2022/03/14", none, "", "", ""⟩ 3).trace).length = 3 ∧
    encodedLogs (logs (pagingPolicyEnv ["a", "b", "c"] 2) "owner"
      ⟨some "2022/03/14", none, "", "", ""⟩ 3).trace = [(Sink.stdout, ["a", "b", "c"])] :=
  have h := logs_aggregates_pages (pagingPolicyEnv ["a", "b", "c"] 2) "owner"
    ⟨some "2022/03/14", none, "", "", ""⟩ 3 [["a", "b"], ["c"]]
    (some ⟨1647216000000000000⟩) none
    (Or.inr ⟨"2022/03/14", ⟨1647216000000000000⟩, rfl, rfl, rfl⟩)
    (Or.inl ⟨rfl, rfl⟩) (fun h => absurd rfl h)
    (by decide)
    (fun k p hk => by
      match k, hk with
      | 0, hk => cases hk; rfl
      | 1, hk => cases hk; rfl)
    rfl (by decide)
  ⟨h.2.2.1, h.2.2.2.1⟩

/-- C9, as amended.  When `--after` was set to a string the parser rejects, `policy
logs` returns "error in parsing --after value: ..." and its whole trace is that one
parse.  When `--before` was set to a string the parser rejects and `--after` was not
set or was accepted, it returns "error in parsing --before value: ..." and its trace
holds only the date parses.  In both cases no file is created and `GetDecisionLogs` is
not called.  A flag that was not set is never parsed, and its filter is absent from
every request sent. -/
theorem logs_rejected_date (env : PolicyEnv) (ownerID : String) (flags : LogsFlags)
    (fuel : Nat) :
    (∀ after err, flags.after = some after → env.ParseStrict after = .error err →
      logs env ownerID flags fuel =
        ⟨[.ParseStrict .after after],
         Outcome.returned (some ("error in parsing --after value: " ++ err))⟩) ∧
    (∀ before err, flags.before = some before → env.ParseStrict before = .error err →
      (∀ after, flags.after = some after → ∃ t, env.ParseStrict after = .ok t) →
      logs env ownerID flags fuel =
        ⟨flags.after.toList.map (PolicyEvent.ParseStrict .after) ++
           [.ParseStrict .before before],
         Outcome.returned (some ("error in parsing --before value: " ++ err))⟩) ∧
    (flags.after = none →
      (∀ v, (DateFlag.after, v) ∉ parsedFlags (logs env ownerID flags fuel).trace) ∧
      ∀ c ∈ decisionLogCalls (logs env ownerID flags fuel).trace, c.1.After = none) ∧
    (flags.before = none →
      (∀ v, (DateFlag.before, v) ∉ parsedFlags (logs env ownerID flags fuel).trace) ∧
      ∀ c ∈ decisionLogCalls (logs env ownerID flags fuel).trace, c.1.Before = none) := by
  have hfilters : ∀ c ∈ decisionLogCalls (logs env ownerID flags fuel).trace,
      (flags.after = none → c.1.After = none) ∧ (flags.before = none → c.1.Before = none) := by
    intro c hc
    rcases logs_shape env ownerID flags fuel with
      ⟨_, hcalls, _⟩ | ⟨request, _, ha, hb, hcalls, _, _⟩
    · rw [hcalls] at hc
      simp at hc
    · rw [hcalls, logsFetch_calls] at hc
      have := fetchLoop_filters env ownerID fuel 0 request [] c hc
      exact ⟨fun h => this.1.trans (ha h), fun h => this.2.trans (hb h)⟩
  refine ⟨?_, ?_, ?_, ?_⟩
  · intro after err hf hp
    exact logsRunE_rejected env ownerID flags _ fuel after err hf hp
  · intro before err hf hp hafter
    unfold logs
    rcases option_cases flags.after with ha | ⟨after, ha⟩
    · rw [logsRunE_unset env ownerID flags _ fuel ha,
        logsBefore_rejected env ownerID flags _ fuel before err hf hp, ha]
      rfl
    · obtain ⟨t, ht⟩ := hafter after ha
      rw [logsRunE_accepted env ownerID flags _ fuel after t ha ht,
        logsBefore_rejected env ownerID flags _ fuel before err hf hp, ha]
      rfl
  · intro ha
    refine ⟨fun v hv => ?_, fun c hc => (hfilters c hc).1 ha⟩
    rcases logs_parsedFlags env ownerID flags fuel _ hv with ⟨_, h⟩ | ⟨h, _⟩
    · rw [ha] at h
      cases h
    · cases h
  · intro hb
    refine ⟨fun v hv => ?_, fun c hc => (hfilters c hc).2 hb⟩
    rcases logs_parsedFlags env ownerID flags fuel _ hv with ⟨h, _⟩ | ⟨_, h⟩
    · cases h
    · rw [hb] at h
      cases h

/-- C9, witness: `--after yesterday` alone, and `--after 2022/03/14 --before tomorrow`,
with a parser that accepts only `2022/03/14`. -/
theorem logs_rejected_date_witness :
    logs (samplePolicyEnv []) "owner" ⟨some "yesterday", none, "", "", "out.json"⟩ 10 =
      ⟨[.ParseStrict .after "yesterday"],
       Outcome.returned (some ("error in parsing --after value: " ++ "Could not find format"))⟩ ∧
    logs (samplePolicyEnv []) "owner" ⟨some "2022/03/14", some "tomorrow", "", "", "out.json"⟩ 10 =
      ⟨[.ParseStrict .after "2022/03/14", .ParseStrict .before "tomorrow"],
       Outcome.returned (some ("error in parsing --before value: " ++ "Could not find format"))⟩ :=
  ⟨(logs_rejected_date (samplePolicyEnv []) "owner"
      ⟨some "yesterday", none, "", "", "out.json"⟩ 10).1 "yesterday" "Could not find format"
      rfl (by rfl),
   (logs_rejected_date (samplePolicyEnv []) "owner"
      ⟨some "2022/03/14", some "tomorrow", "", "", "out.json"⟩ 10).2.1 "tomorrow"
      "Could not find format" rfl (by rfl)
      (fun after h => ⟨⟨1647216000000000000⟩, by cases h; rfl⟩)⟩

/-- C9, counterexample to the claim as stated: `--before` is set to a string the parser
rejects, yet the error returned does not name `--before`; `--after` was rejected first,
the command returned there, and the value of `--before` was never parsed. -/
theorem logs_rejected_before_reports_after :
    (samplePolicyEnv []).ParseStrict "tomorrow" = .error "Could not find format" ∧
    logs (samplePolicyEnv []) "owner" ⟨some "yesterday", some "tomorrow", "", "", ""⟩ 10 =
      ⟨[.ParseStrict .after "yesterday"],
       Outcome.returned (some "error in parsing --after value: Could not find format")⟩ ∧
    (logs (samplePolicyEnv []) "owner" ⟨some "yesterday", some "tomorrow", "", "", ""⟩ 10).outcome ≠
      Outcome.returned (some "error in parsing --before value: Could not find format") := by
  refine ⟨by rfl, by decide, by decide⟩

end CircleCI
